import Mathlib

/-!
Verification of the manifest compiler (`src/cargo/util/toml.rs`): a shallow
embedding of its data model and operations, followed by theorems about the
properties the specification states.

Types that live outside the scoped source file (`Profile`, `Target`,
`SourceId`, `Dependency`, `Manifest`, ...) are modelled from the
specification, constrained by exactly how the scoped source uses them.
-/

namespace CargoToml

/-- Sparse per-profile override (`TomlProfile` in the source): optional
optimization level, codegen-unit count, debug flag and rpath flag. -/
structure TomlProfile where
  opt_level : Option Nat := none
  codegen_units : Option Nat := none
  debug : Option Bool := none
  rpath : Option Bool := none
deriving DecidableEq, Repr

/-- The per-profile-kind override table (`TomlProfiles` in the source). -/
structure TomlProfiles where
  test : Option TomlProfile := none
  doc : Option TomlProfile := none
  bench : Option TomlProfile := none
  dev : Option TomlProfile := none
  release : Option TomlProfile := none
deriving DecidableEq, Repr

/-- Modelled from the spec: a resolved `Profile` is a named build
configuration carrying optimization level, codegen units, debug flag, rpath
flag, the test/doc/doctest/harness booleans, a host-only flag and a
custom-build-script flag.  The `env` field is the profile's name
(development, release, test, documentation, benchmark), which the spec makes
part of a Profile's identity ("a *named* build configuration").  The source
file only ever updates the fields below, so no further fields are modelled. -/
structure Profile where
  env : String
  opt_level : Nat
  codegen_units : Option Nat
  debug : Bool
  rpath : Bool
  test : Bool
  doc : Bool
  doctest : Bool
  harness : Bool
  for_host : Bool
  custom_build : Bool
deriving DecidableEq, Repr

namespace Profile

/-- Modelled from the spec: the built-in development profile defaults
(no optimization, debug info on, everything else off, harness on). -/
def default_dev : Profile :=
  { env := "dev", opt_level := 0, codegen_units := none, debug := true,
    rpath := false, test := false, doc := false, doctest := false,
    harness := true, for_host := false, custom_build := false }

/-- Modelled from the spec: the built-in release profile defaults
(full optimization, no debug info). -/
def default_release : Profile :=
  { default_dev with env := "release", opt_level := 3, debug := false }

/-- Modelled from the spec: the built-in test profile defaults — a dev-like
profile with test execution (the test harness) enabled.  That the `test`
flag defaults to on is forced by the source, which derives the non-executing
library variant from it by switching the flag off. -/
def default_test : Profile :=
  { default_dev with env := "test", test := true }

/-- Modelled from the spec: the built-in documentation profile defaults. -/
def default_doc : Profile :=
  { default_dev with env := "doc", doc := true }

/-- Modelled from the spec: the built-in benchmark profile defaults — a
release-like profile with test execution enabled (benchmarks run through the
harness); again the source's `default_bench().test(false)` forces the `test`
flag to default to on. -/
def default_bench : Profile :=
  { default_release with env := "bench", test := true }

/-- Modelled from the spec: whether this profile executes as a test
(compiled with the test harness); the source consults it to decide which
variants receive disambiguating metadata. -/
def is_test (p : Profile) : Bool := p.test

end Profile

/-- Modelled from the spec: a metadata fingerprint derived from package
identity, optionally mixed with extra disambiguation strings. -/
structure Metadata where
  base : String
  mixins : List String
deriving DecidableEq, Repr

/-- Modelled from the spec: mixing an extra string into a fingerprint. -/
def Metadata.mix (m : Metadata) (s : String) : Metadata :=
  { m with mixins := m.mixins ++ [s] }

/-- Modelled from the spec: the crate kinds a library target may declare. -/
inductive LibKind where
  | Lib
  | Rlib
  | Dylib
  | StaticLib
deriving DecidableEq, Repr

/-- Modelled from the spec: parsing one declared crate-kind string. -/
def LibKind.from_str (s : String) : Except String LibKind :=
  if s = "lib" then .ok .Lib
  else if s = "rlib" then .ok .Rlib
  else if s = "dylib" then .ok .Dylib
  else if s = "staticlib" then .ok .StaticLib
  else .error ("crate-type \x22" ++ s ++ "\x22 was not one of lib|rlib|dylib|staticlib")

/-- Modelled from the spec: parsing a declared crate-kind list. -/
def LibKind.from_strs (ss : List String) : Except String (List LibKind) :=
  ss.mapM LibKind.from_str

/-- A target's role (the spec's role ∈ {library, binary, example,
integration-test, benchmark, custom-build-script}). -/
inductive TargetKind where
  | lib
  | bin
  | example
  | testKind
  | bench
  | customBuild
deriving DecidableEq, Repr

/-- Modelled from the spec: one resolved build target — role, name, crate
kinds (library only), source path, resolved profile and optional
disambiguating metadata. -/
structure Target where
  kind : TargetKind
  name : String
  crate_types : List LibKind
  src_path : String
  profile : Profile
  metadata : Option Metadata
deriving DecidableEq, Repr

namespace Target

/-- Modelled from the spec: the library-target constructor. -/
def lib_target (name : String) (crate_types : List LibKind) (src_path : String)
    (profile : Profile) (metadata : Metadata) : Target :=
  { kind := .lib, name := name, crate_types := crate_types,
    src_path := src_path, profile := profile, metadata := some metadata }

/-- Modelled from the spec: the binary-target constructor. -/
def bin_target (name : String) (src_path : String) (profile : Profile)
    (metadata : Option Metadata) : Target :=
  { kind := .bin, name := name, crate_types := [], src_path := src_path,
    profile := profile, metadata := metadata }

/-- Modelled from the spec: the example-target constructor (no metadata). -/
def example_target (name : String) (src_path : String) (profile : Profile) :
    Target :=
  { kind := .example, name := name, crate_types := [], src_path := src_path,
    profile := profile, metadata := none }

/-- Modelled from the spec: the integration-test-target constructor. -/
def test_target (name : String) (src_path : String) (profile : Profile)
    (metadata : Metadata) : Target :=
  { kind := .testKind, name := name, crate_types := [], src_path := src_path,
    profile := profile, metadata := some metadata }

/-- Modelled from the spec: the benchmark-target constructor. -/
def bench_target (name : String) (src_path : String) (profile : Profile)
    (metadata : Metadata) : Target :=
  { kind := .bench, name := name, crate_types := [], src_path := src_path,
    profile := profile, metadata := some metadata }

/-- Modelled from the spec: the custom-build-script-target constructor. -/
def custom_build_target (name : String) (src_path : String)
    (profile : Profile) (metadata : Option Metadata) : Target :=
  { kind := .customBuild, name := name, crate_types := [],
    src_path := src_path, profile := profile, metadata := metadata }

end Target

/-- A declared or inferred target descriptor (`TomlTarget` in the source). -/
structure TomlTarget where
  name : String
  crate_type : Option (List String) := none
  path : Option String := none
  test : Option Bool := none
  doctest : Option Bool := none
  bench : Option Bool := none
  doc : Option Bool := none
  plugin : Option Bool := none
  harness : Option Bool := none
deriving DecidableEq, Repr

/-- `TomlTarget::new()` from the source: the all-defaults descriptor. -/
def TomlTarget.new : TomlTarget := { name := "" }

/-- Whether the targets being normalized include any example,
integration-test or benchmark targets (`TestDep` in the source). -/
inductive TestDep where
  | Needed
  | NotNeeded
deriving DecidableEq, Repr

/-- `merge` from the source's `normalize`: merging a sparse override onto a
baseline profile.  Only the optimization level, codegen units, debug flag
and rpath flag are touched; the codegen-unit count is replaced by the
override's optional value outright. -/
def merge (profile : Profile) (toml : Option TomlProfile) : Profile :=
  match toml with
  | none => profile
  | some t =>
    { profile with
      opt_level := t.opt_level.getD profile.opt_level,
      codegen_units := t.codegen_units,
      debug := t.debug.getD profile.debug,
      rpath := t.rpath.getD profile.rpath }

/-- `target_profiles` from the source: the profile fan-out for one library
or binary descriptor — dev and release always, test unless disabled, doc
(with the doctest flag defaulting to enabled) unless disabled, bench unless
disabled, plus the three non-executing variants when a test dependency is
needed, all marked host-only when the descriptor is a plugin. -/
def target_profiles (target : TomlTarget) (profiles : TomlProfiles)
    (dep : TestDep) : List Profile :=
  let ret : List Profile :=
    [merge Profile.default_dev profiles.dev,
     merge Profile.default_release profiles.release]
  let ret := ret ++
    (match target.test with
     | some true | none => [merge Profile.default_test profiles.test]
     | some false => [])
  let doctest := target.doctest.getD true
  let ret := ret ++
    (match target.doc with
     | some true | none =>
       [merge { Profile.default_doc with doctest := doctest } profiles.doc]
     | some false => [])
  let ret := ret ++
    (match target.bench with
     | some true | none => [merge Profile.default_bench profiles.bench]
     | some false => [])
  let ret := ret ++
    (match dep with
     | .Needed =>
       [merge { Profile.default_test with test := false } profiles.test,
        merge { Profile.default_doc with doc := false } profiles.doc,
        merge { Profile.default_bench with test := false } profiles.bench]
     | .NotNeeded => [])
  if target.plugin = some true then
    ret.map (fun p => { p with for_host := true })
  else
    ret

/-- `lib_targets` from the source: the first library descriptor fans out,
test-executing variants get metadata mixed with the fixed tag. -/
def lib_targets (l : TomlTarget) (dep : TestDep) (metadata : Metadata)
    (profiles : TomlProfiles) : List Target :=
  let path := l.path.getD ("src/" ++ l.name ++ ".rs")
  let crate_types :=
    match l.crate_type with
    | some kinds =>
      match LibKind.from_strs kinds with
      | .ok ks => ks
      | .error _ => [if l.plugin = some true then .Dylib else .Lib]
    | none => [if l.plugin = some true then .Dylib else .Lib]
  (target_profiles l profiles dep).map (fun profile =>
    let metadata := if profile.is_test then metadata.mix ("test") else metadata
    Target.lib_target l.name crate_types path profile metadata)

/-- `bin_targets` from the source: every binary descriptor fans out,
test-executing variants get metadata mixed with `bin-<name>`, every other
variant carries no metadata. -/
def bin_targets (bins : List TomlTarget) (dep : TestDep) (metadata : Metadata)
    (profiles : TomlProfiles) (dflt : TomlTarget → String) : List Target :=
  bins.flatMap (fun bin =>
    let path := bin.path.getD (dflt bin)
    (target_profiles bin profiles dep).map (fun profile =>
      let md :=
        if profile.is_test then some (metadata.mix ("bin-" ++ bin.name))
        else none
      Target.bin_target bin.name path profile md))

/-- `custom_build_target` from the source: a single host-only dev-profile
custom-build variant. -/
def custom_build_target (cmd : String) (profiles : TomlProfiles)
    (stem : String) : List Target :=
  let ps :=
    [merge { Profile.default_dev with for_host := true, custom_build := true }
       profiles.dev]
  let name := "build-script-" ++ stem
  ps.map (fun profile => Target.custom_build_target name cmd profile none)

/-- `example_targets` from the source: each example descriptor emits exactly
one non-executing test-profile variant. -/
def example_targets (examples : List TomlTarget) (profiles : TomlProfiles)
    (dflt : TomlTarget → String) : List Target :=
  examples.map (fun ex =>
    let path := ex.path.getD (dflt ex)
    let profile := merge { Profile.default_test with test := false }
      profiles.test
    Target.example_target ex.name path profile)

/-- `test_targets` from the source: each integration-test descriptor emits
exactly one test-profile variant (harness per its flag) with metadata mixed
with `test-<name>`. -/
def test_targets (tests : List TomlTarget) (metadata : Metadata)
    (profiles : TomlProfiles) (dflt : TomlTarget → String) : List Target :=
  tests.map (fun t =>
    let path := t.path.getD (dflt t)
    let harness := t.harness.getD true
    let md := metadata.mix ("test-" ++ t.name)
    let profile := merge { Profile.default_test with harness := harness }
      profiles.test
    Target.test_target t.name path profile md)

/-- `bench_targets` from the source: each benchmark descriptor emits exactly
one bench-profile variant (harness per its flag) with metadata mixed with
`bench-<name>`. -/
def bench_targets (benches : List TomlTarget) (metadata : Metadata)
    (profiles : TomlProfiles) (dflt : TomlTarget → String) : List Target :=
  benches.map (fun b =>
    let path := b.path.getD (dflt b)
    let harness := b.harness.getD true
    let md := metadata.mix ("bench-" ++ b.name)
    let profile := merge { Profile.default_bench with harness := harness }
      profiles.bench
    Target.bench_target b.name path profile md)

/-- The stem of a path's file name (Rust's `filestem_str`, modelled on
slash-separated string paths): the file name with its last extension
removed; `none` when the file name is empty. -/
def filestem (p : String) : Option String :=
  let f := ((p.splitOn ("/")).getLast?).getD ""
  if f = "" then none
  else
    let parts := f.splitOn (".")
    if parts.length ≤ 1 then some f
    else some (String.intercalate (".") parts.dropLast)

/-- `normalize` from the source: the single authoritative algorithm turning
declared-or-inferred descriptors plus per-profile overrides into the final
target list. -/
def normalize (libs : List TomlTarget) (bins : List TomlTarget)
    (custom_build : Option String) (examples : List TomlTarget)
    (tests : List TomlTarget) (benches : List TomlTarget)
    (metadata : Metadata) (profiles : TomlProfiles) : List Target :=
  let test_dep :=
    if examples.length > 0 || tests.length > 0 || benches.length > 0 then
      TestDep.Needed
    else
      TestDep.NotNeeded
  let ret : List Target :=
    match libs, bins with
    | l :: _, _ :: _ =>
      lib_targets l .Needed metadata profiles ++
        bin_targets bins test_dep metadata profiles
          (fun bin => "src/bin/" ++ bin.name ++ ".rs")
    | l :: _, [] =>
      lib_targets l .Needed metadata profiles
    | [], _ :: _ =>
      bin_targets bins test_dep metadata profiles
        (fun bin => "src/" ++ bin.name ++ ".rs")
    | [], [] => []
  let ret := ret ++
    (match custom_build with
     | some cmd => custom_build_target cmd profiles ((filestem cmd).getD (""))
     | none => [])
  let ret := ret ++ example_targets examples profiles
    (fun ex => "examples/" ++ ex.name ++ ".rs")
  let ret := ret ++ test_targets tests metadata profiles
    (fun t => if t.name = "test" then "src/test.rs"
              else "tests/" ++ t.name ++ ".rs")
  ret ++ bench_targets benches metadata profiles
    (fun b => if b.name = "bench" then "src/bench.rs"
              else "benches/" ++ b.name ++ ".rs")

/-! ## Dependency source resolution -/

/-- Modelled from the spec: the identity of where a package's code comes
from — the registry, a version-controlled remote (URL plus resolved
reference string), or a local path.  Equality is exact structural match. -/
inductive SourceId where
  | registry
  | git (url : String) (reference : String)
  | path (p : String)
deriving DecidableEq, Repr

/-- Modelled from the spec: the dependency kinds. -/
inductive DepKind where
  | Normal
  | Development
  | Build
deriving DecidableEq, Repr

/-- Modelled from the spec: a resolution-ready dependency record — name,
optional version requirement, resolved SourceId, requested features,
default-features flag, optional flag, kind, optional platform
restriction. -/
structure Dependency where
  name : String
  req : Option String
  source_id : SourceId
  feats : List String
  uses_default_features : Bool
  optional_dep : Bool
  kind : DepKind
  only_for : Option String
deriving DecidableEq, Repr

namespace Dependency

/-- Modelled from the spec: `Dependency::parse` — a record from name,
optional version requirement and source, all other fields at their
documented defaults (features empty, default-features on, not optional,
kind normal, no platform restriction).  Version-requirement parsing is an
opaque external library per the spec and is not modelled. -/
def parse (name : String) (req : Option String) (source_id : SourceId) :
    Dependency :=
  { name := name, req := req, source_id := source_id, feats := [],
    uses_default_features := true, optional_dep := false, kind := .Normal,
    only_for := none }

/-- Builder: replace the feature list. -/
def features (d : Dependency) (fs : List String) : Dependency :=
  { d with feats := fs }

/-- Builder: replace the default-features flag. -/
def default_features (d : Dependency) (b : Bool) : Dependency :=
  { d with uses_default_features := b }

/-- Builder: replace the optional flag. -/
def optional (d : Dependency) (b : Bool) : Dependency :=
  { d with optional_dep := b }

/-- Builder: replace the dependency kind. -/
def set_kind (d : Dependency) (k : DepKind) : Dependency :=
  { d with kind := k }

/-- Builder: replace the platform restriction. -/
def only_for_platform (d : Dependency) (p : Option String) : Dependency :=
  { d with only_for := p }

end Dependency

/-- Modelled from the spec: URL parsing is an opaque external facility of
which the spec only says that a malformed remote URL fails with a
descriptive error; here the empty string stands for the malformed case. -/
def to_url (s : String) : Except String String :=
  if s = "" then .error ("invalid url") else .ok s

/-- The detailed dependency table (`DetailedTomlDependency`). -/
structure DetailedTomlDependency where
  version : Option String := none
  path : Option String := none
  git : Option String := none
  branch : Option String := none
  tag : Option String := none
  rev : Option String := none
  features : Option (List String) := none
  optional : Option Bool := none
  default_features : Option Bool := none
deriving DecidableEq, Repr

/-- A declared dependency (`TomlDependency`): bare version-requirement
string, or detailed table. -/
inductive TomlDependency where
  | SimpleDep (version : String)
  | DetailedDep (details : DetailedTomlDependency)
deriving DecidableEq, Repr

/-- The accumulator threaded through dependency processing (`Context`):
collected records, the referencing manifest's SourceId, and the local
nested paths recorded for recursive descent. -/
structure Context where
  deps : List Dependency
  source_id : SourceId
  nested_paths : List String
deriving DecidableEq, Repr

/-- `process_dependencies` from the source: normalize each declared entry's
shorthand, resolve the reference selector (branch, else tag, else revision,
else `master`), resolve the SourceId (remote URL wins; else a local path
records a nested path and reuses the referencing manifest's SourceId; else
the registry), build the record and apply kind/platform via `f` and then
feature list, default-features flag, optional flag. -/
def process_dependencies (cx : Context)
    (new_deps : Option (List (String × TomlDependency)))
    (f : Dependency → Dependency) : Except String Context :=
  match new_deps with
  | none => .ok cx
  | some dependencies =>
    dependencies.foldlM (fun cx nv => do
      let n := nv.1
      let details :=
        match nv.2 with
        | .SimpleDep version =>
          { ({} : DetailedTomlDependency) with version := some version }
        | .DetailedDep details => details
      let reference := ((details.branch.or details.tag).or details.rev).getD ("master")
      let (new_source_id, nested) ←
        match details.git with
        | some git => do
          let loc ← to_url git
          pure (SourceId.git loc reference, cx.nested_paths)
        | none =>
          match details.path with
          | some path => pure (cx.source_id, cx.nested_paths ++ [path])
          | none => pure (SourceId.registry, cx.nested_paths)
      let dep := Dependency.parse n details.version new_source_id
      let dep := (((f dep).features (details.features.getD [])).default_features
        (details.default_features.getD true)).optional
        (details.optional.getD false)
      pure { cx with deps := cx.deps ++ [dep], nested_paths := nested }) cx

/-! ## Layout and inferred targets -/

/-- Joining a root directory and a relative path (external path library,
modelled on slash-separated strings). -/
def pathJoin (root : String) (p : String) : String := root ++ "/" ++ p

/-- The file name of a path (the part after the last slash). -/
def filename (p : String) : String := ((p.splitOn ("/")).getLast?).getD ""

/-- The project layout returned by the external layout provider. -/
structure Layout where
  root : String
  lib : Option String
  bins : List String
  examples : List String
  tests : List String
  benches : List String
deriving DecidableEq, Repr

/-- `Layout::main` from the source: the first discovered executable whose
file name is the conventional main file. -/
def Layout.main (l : Layout) : Option String :=
  l.bins.find? (fun p => filename p = "main.rs")

/-- `inferred_lib_target` from the source. -/
def inferred_lib_target (name : String) (layout : Layout) : List TomlTarget :=
  match layout.lib with
  | some lib => [{ TomlTarget.new with name := name, path := some lib }]
  | none => []

/-- `inferred_bin_targets` from the source: the conventional main file is
named after the package, any other discovered executable after its stem. -/
def inferred_bin_targets (name : String) (layout : Layout) :
    List TomlTarget :=
  layout.bins.filterMap (fun bin =>
    let n :=
      if bin = "src/main.rs" ∨ bin = pathJoin layout.root ("src/main.rs") then
        some name
      else
        filestem bin
    n.map (fun n => { TomlTarget.new with name := n, path := some bin }))

/-- `inferred_example_targets` from the source. -/
def inferred_example_targets (layout : Layout) : List TomlTarget :=
  layout.examples.filterMap (fun ex =>
    (filestem ex).map (fun n => { TomlTarget.new with name := n, path := some ex }))

/-- `inferred_test_targets` from the source. -/
def inferred_test_targets (layout : Layout) : List TomlTarget :=
  layout.tests.filterMap (fun t =>
    (filestem t).map (fun n => { TomlTarget.new with name := n, path := some t }))

/-- `inferred_bench_targets` from the source. -/
def inferred_bench_targets (layout : Layout) : List TomlTarget :=
  layout.benches.filterMap (fun b =>
    (filestem b).map (fun n => { TomlTarget.new with name := n, path := some b }))

/-! ## The manifest -/

/-- The legacy build-command field: one command or several. -/
inductive TomlBuildCommandsList where
  | SingleBuildCommand (cmd : String)
  | MultipleBuildCommands (cmds : List String)
deriving DecidableEq, Repr

/-- The package/project section (`TomlProject`); the version is kept as its
string since semantic-version parsing is an opaque external library. -/
structure TomlProject where
  name : String
  version : String
  authors : List String := []
  build : Option TomlBuildCommandsList := none
  links : Option String := none
  exclude : Option (List String) := none
  description : Option String := none
  homepage : Option String := none
  documentation : Option String := none
  readme : Option String := none
  keywords : Option (List String) := none
  license : Option String := none
  repository : Option String := none
deriving DecidableEq, Repr

/-- The library section may be a single table or a legacy list
(`ManyOrOne`). -/
inductive ManyOrOne (T : Type) where
  | Many (ts : List T)
  | One (t : T)
deriving DecidableEq, Repr

/-- `ManyOrOne::as_slice`. -/
def ManyOrOne.as_slice : ManyOrOne T → List T
  | .Many ts => ts
  | .One t => [t]

/-- A `[target.<platform>]` block (`TomlPlatform`). -/
structure TomlPlatform where
  dependencies : Option (List (String × TomlDependency)) := none

/-- The decoded manifest (`TomlManifest`); the maps of the source are
modelled as association lists. -/
structure TomlManifest where
  package : Option TomlProject := none
  project : Option TomlProject := none
  profile : Option TomlProfiles := none
  lib : Option (ManyOrOne TomlTarget) := none
  bin : Option (List TomlTarget) := none
  «example» : Option (List TomlTarget) := none
  test : Option (List TomlTarget) := none
  bench : Option (List TomlTarget) := none
  dependencies : Option (List (String × TomlDependency)) := none
  dev_dependencies : Option (List (String × TomlDependency)) := none
  build_dependencies : Option (List (String × TomlDependency)) := none
  features : Option (List (String × List String)) := none
  target : Option (List (String × TomlPlatform)) := none

/-- Modelled from the spec: package identity. -/
structure PackageId where
  name : String
  version : String
  source_id : SourceId
deriving DecidableEq, Repr

/-- Modelled from the spec: the fingerprint derived from package
identity. -/
def PackageId.generate_metadata (p : PackageId) : Metadata :=
  { base := p.name ++ "-" ++ p.version, mixins := [] }

/-- Modelled from the spec: the summary handed to the dependency-graph
resolver — package identity, dependency records and feature table. -/
structure Summary where
  package_id : PackageId
  deps : List Dependency
  features : List (String × List String)
deriving DecidableEq, Repr

/-- Package-level descriptive metadata (`ManifestMetadata`), carried through
unchanged. -/
structure ManifestMetadata where
  description : Option String
  homepage : Option String
  documentation : Option String
  readme : Option String
  authors : List String
  license : Option String
  repository : Option String
  keywords : List String
deriving DecidableEq, Repr

/-- Modelled from the spec: the final manifest — summary, target list,
output directories, legacy build commands, exclude list, links tag,
metadata, and the accumulating warning list. -/
structure Manifest where
  summary : Summary
  targets : List Target
  target_dir : String
  doc_dir : String
  build : List String
  exclude : List String
  links : Option String
  metadata : ManifestMetadata
  warnings : List String
deriving DecidableEq, Repr

/-- Modelled from the spec: appending one non-fatal warning. -/
def Manifest.add_warning (m : Manifest) (s : String) : Manifest :=
  { m with warnings := m.warnings ++ [s] }

/-- The declared library list with layout-inferred paths spliced in, or the
layout-synthesized library descriptor (the `lib` let of the source's
`to_manifest`). -/
def resolved_lib (self : TomlManifest) (project : TomlProject)
    (layout : Layout) : List TomlTarget :=
  match self.lib with
  | some libs =>
    libs.as_slice.map (fun t =>
      if layout.lib.isSome ∧ t.path.isNone then
        { t with path := layout.lib }
      else t)
  | none => inferred_lib_target project.name layout

/-- The declared binaries with the layout's conventional main path spliced
in, or the layout-synthesized binary descriptors (the `bins` let of the
source's `to_manifest`). -/
def resolved_bins (self : TomlManifest) (project : TomlProject)
    (layout : Layout) : List TomlTarget :=
  match self.bin with
  | some bins =>
    let bin := layout.main
    bins.map (fun t =>
      if bin.isSome ∧ t.path.isNone then { t with path := bin } else t)
  | none => inferred_bin_targets project.name layout

/-- Declared examples, else the layout-inferred ones. -/
def resolved_examples (self : TomlManifest) (layout : Layout) :
    List TomlTarget :=
  match self.«example» with
  | some examples => examples
  | none => inferred_example_targets layout

/-- Declared integration tests, else the layout-inferred ones. -/
def resolved_tests (self : TomlManifest) (layout : Layout) :
    List TomlTarget :=
  match self.test with
  | some tests => tests
  | none => inferred_test_targets layout

/-- Declared benchmarks, with the layout-inferred ones used both when the
section is absent and when it is declared as an empty list. -/
def resolved_benches (self : TomlManifest) (layout : Layout) :
    List TomlTarget :=
  if self.bench.isNone ∨ (self.bench.getD []).isEmpty then
    inferred_bench_targets layout
  else
    self.bench.getD []

/-- Classifying the package build command: a source-file-like command that
exists becomes the custom build script, anything else stays a legacy
opaque command list (the `new_build`/`old_build` pair of the source's
`to_manifest`). -/
def build_split (project : TomlProject) (layout : Layout)
    (fs_exists : String → Bool) : Option String × List String :=
  match project.build with
  | some (.SingleBuildCommand cmd) =>
    if cmd.endsWith (".rs") ∧ fs_exists (pathJoin layout.root cmd) then
      (some cmd, ([] : List String))
    else
      (none, [cmd])
  | some (.MultipleBuildCommands cmds) => (none, cmds)
  | none => (none, [])

/-- `TomlManifest::to_manifest` from the source: pick the package section,
splice layout-inferred paths into declared targets or synthesize
descriptors, classify the build command, normalize targets, process all
dependency groups, and assemble the manifest plus nested paths.  The
filesystem probe used by the custom-build classification is passed in as an
oracle, the external filesystem not being part of this core. -/
def TomlManifest.to_manifest (self : TomlManifest) (source_id : SourceId)
    (layout : Layout) (fs_exists : String → Bool) :
    Except String (Manifest × List String) := do
  let project ←
    match self.project.or self.package with
    | some p => Except.ok p
    | none => Except.error ("No `package` or `project` section found.")
  let pkgid := PackageId.mk project.name project.version source_id
  let metadata := pkgid.generate_metadata
  let used_deprecated_lib :=
    match self.lib with
    | some (.Many _) => true
    | _ => false
  let lib := resolved_lib self project layout
  let bins := resolved_bins self project layout
  let examples := resolved_examples self layout
  let tests := resolved_tests self layout
  let benches := resolved_benches self layout
  let nb_ob := build_split project layout fs_exists
  let new_build := nb_ob.1
  let old_build := nb_ob.2
  let profiles := self.profile.getD {}
  let targets := normalize lib bins new_build examples tests benches
    metadata profiles
  let cx : Context :=
    { deps := [], source_id := source_id, nested_paths := [] }
  let cx ← process_dependencies cx self.dependencies (fun dep => dep)
  let cx ← process_dependencies cx self.dev_dependencies
    (fun dep => dep.set_kind .Development)
  let cx ← process_dependencies cx self.build_dependencies
    (fun dep => dep.set_kind .Build)
  let cx ←
    match self.target with
    | some targets =>
      targets.foldlM (fun cx nt =>
        process_dependencies cx nt.2.dependencies
          (fun dep => dep.only_for_platform (some nt.1))) cx
    | none => pure cx
  let exclude := project.exclude.getD []
  let has_old_build := decide (old_build.length ≥ 1)
  let summary : Summary :=
    { package_id := pkgid, deps := cx.deps,
      features := self.features.getD [] }
  let mmeta : ManifestMetadata :=
    { description := project.description, homepage := project.homepage,
      documentation := project.documentation, readme := project.readme,
      authors := project.authors, license := project.license,
      repository := project.repository,
      keywords := project.keywords.getD [] }
  let manifest : Manifest :=
    { summary := summary, targets := targets,
      target_dir := pathJoin layout.root ("target"),
      doc_dir := pathJoin layout.root ("doc"),
      build := old_build, exclude := exclude, links := project.links,
      metadata := mmeta, warnings := [] }
  let manifest :=
    if used_deprecated_lib then
      manifest.add_warning
        ("the [[lib]] section has been deprecated in favor of [lib]")
    else manifest
  let manifest :=
    if has_old_build then
      ((manifest.add_warning
        ("warning: an arbitrary build command has now been deprecated.")).add_warning
        ("         It has been replaced by custom build scripts.")).add_warning
        ("         For more information, see http://doc.crates.io/build-script.html")
    else manifest
  Except.ok (manifest, cx.nested_paths)

/-! ## Unused-key diagnostics and the outer entry point -/

/-- The generic config tree left by the decoder (`toml::Value`): tables,
arrays and leaf values. -/
inductive TomlValue where
  | table (entries : List (String × TomlValue))
  | array (elems : List TomlValue)
  | str (s : String)
  | int (i : Int)
  | boolean (b : Bool)

/-- One step of the dotted-path accumulation: a table node extends the
accumulated key path with its key. -/
def extendKey (key : String) (k : String) : String :=
  if key.length = 0 then k else key ++ "." ++ k

mutual

/-- `add_unused_keys` from the source: recursively walk the unconsumed
config tree, appending one warning per leaf value naming its dotted key
path; table nodes extend the accumulated path with their key, array nodes
recurse without extending it. -/
def add_unused_keys (m : Manifest) (t : TomlValue) (key : String) :
    Manifest :=
  match t with
  | .table entries => add_unused_keys_table m entries key
  | .array elems => add_unused_keys_array m elems key
  | _ => m.add_warning ("unused manifest key: " ++ key)

/-- The table half of the walk. -/
def add_unused_keys_table (m : Manifest)
    (entries : List (String × TomlValue)) (key : String) : Manifest :=
  match entries with
  | [] => m
  | (k, v) :: rest =>
    add_unused_keys_table (add_unused_keys m v (extendKey key k)) rest key

/-- The array half of the walk. -/
def add_unused_keys_array (m : Manifest) (elems : List TomlValue)
    (key : String) : Manifest :=
  match elems with
  | [] => m
  | v :: rest => add_unused_keys_array (add_unused_keys m v key) rest key

end

/-- `to_manifest` from the source, past the external UTF-8/TOML-parsing and
decoding stages: run the typed conversion, walk the decoder's leftover tree
for unused keys, and reject a manifest whose synthesized target set is
empty. -/
def to_manifest (toml_manifest : TomlManifest) (leftover : Option TomlValue)
    (source_id : SourceId) (layout : Layout) (fs_exists : String → Bool) :
    Except String (Manifest × List String) := do
  let (manifest, paths) ←
    toml_manifest.to_manifest source_id layout fs_exists
  let manifest :=
    match leftover with
    | some t => add_unused_keys manifest t ("")
    | none => manifest
  if manifest.targets.length = 0 then
    Except.error ("either a [lib] or [[bin]] section must be present")
  else
    Except.ok (manifest, paths)

/-! ## Auxiliary definitions used in the statements and proofs -/

/-- The host-only marking applied uniformly to a plugin descriptor's
variants (the final step of `target_profiles`). -/
def hostify (t : TomlTarget) (p : Profile) : Profile :=
  if t.plugin = some true then { p with for_host := true } else p

/-- The fan-out of `target_profiles`, written as conditional segments; the
equation `target_profiles_eq` below proves it equal to the source's
match-based form. -/
def profile_variants (t : TomlTarget) (ps : TomlProfiles) (dep : TestDep) :
    List Profile :=
  [merge Profile.default_dev ps.dev, merge Profile.default_release ps.release]
  ++ (if t.test = some false then [] else [merge Profile.default_test ps.test])
  ++ (if t.doc = some false then []
      else [merge { Profile.default_doc with doctest := t.doctest.getD true }
        ps.doc])
  ++ (if t.bench = some false then [] else [merge Profile.default_bench ps.bench])
  ++ (if dep = TestDep.Needed then
        [merge { Profile.default_test with test := false } ps.test,
         merge { Profile.default_doc with doc := false } ps.doc,
         merge { Profile.default_bench with test := false } ps.bench]
      else [])

/-- The fields that distinguish the profile variants emitted for one
descriptor: profile name, test-execution flag, doc flag. -/
def Profile.sig (p : Profile) : String × Bool × Bool := (p.env, p.test, p.doc)

/-- A target's artifact identity: the (name, role, Profile) triple of the
uniqueness invariant. -/
def targetTriple (t : Target) : String × TargetKind × Profile :=
  (t.name, t.kind, t.profile)

/-- The sub-list of targets having a given role. -/
def targetsOfKind (k : TargetKind) (L : List Target) : List Target :=
  L.filter (fun tg => decide (tg.kind = k))

/-! ## Concrete inputs used by witnesses and counterexamples -/

/-- A plain library descriptor. -/
def l0 : TomlTarget := { name := "mylib" }

/-- A plain example descriptor. -/
def ex0 : TomlTarget := { name := "ex1" }

/-- A concrete package fingerprint. -/
def md0 : Metadata := { base := "pkg-0.1.0", mixins := [] }

/-- An empty override table. -/
def ps0 : TomlProfiles := {}

/-- A binary descriptor with an explicit path. -/
def binA : TomlTarget := { name := "tool", path := some "src/tool.rs" }

/-- A concrete package section. -/
def prj0 : TomlProject := { name := "pkg", version := "0.1.0" }

/-- A layout in which nothing was discovered. -/
def layout0 : Layout :=
  { root := "proj", lib := none, bins := [], examples := [], tests := [],
    benches := [] }

/-- A layout with discovered integration-test and benchmark files only. -/
def layoutTB : Layout :=
  { root := "proj", lib := none, bins := [], examples := [],
    tests := ["tests/t1.rs"], benches := ["benches/b1.rs"] }

/-- A filesystem oracle on which no file exists. -/
def fsNo : String → Bool := fun _ => false

/-- A manifest declaring two identically named binaries. -/
def tm3 : TomlManifest := { project := some prj0, bin := some [binA, binA] }

/-- A manifest declaring nothing but the package section. -/
def tm7 : TomlManifest := { project := some prj0 }

/-- A manifest declaring only the package section and one integration
test. -/
def tmT : TomlManifest :=
  { project := some prj0, test := some [{ name := "t1" }] }

/-- The target list of a compilation result (empty on error). -/
def resultTargets : Except String (Manifest × List String) → List Target
  | .ok p => p.1.targets
  | .error _ => []

/-- Whether a compilation result is a success. -/
def resultIsOk : Except String (Manifest × List String) → Bool
  | .ok _ => true
  | .error _ => false

/-- A context whose referencing manifest came from a remote source. -/
def cxGit : Context :=
  { deps := [], source_id := SourceId.git "https://example.com/a" "master",
    nested_paths := [] }

/-- A context whose referencing manifest came from a local path. -/
def cxPath : Context :=
  { deps := [], source_id := SourceId.path "proj", nested_paths := [] }

/-- A dependency table declaring only a local path. -/
def d5 : DetailedTomlDependency := { path := some "../foo" }

/-- A dependency table declaring a remote URL and a tag. -/
def d6tag : DetailedTomlDependency :=
  { git := some "https://example.com/a", tag := some "v1.0" }

/-- A dependency table declaring only a remote URL. -/
def d6bare : DetailedTomlDependency := { git := some "https://example.com/a" }

/-- The spec's wording of the reference selector: branch, else tag, else
revision, else the default branch name. -/
def referenceSpec (branch tag rev : Option String) : String :=
  match branch, tag, rev with
  | some b, _, _ => b
  | none, some t, _ => t
  | none, none, some r => r
  | none, none, none => "master"

/-- The warning text for one unused key path. -/
def warnText (p : String) : String := "unused manifest key: " ++ p

mutual

/-- The dotted key paths of all leaf values of a config tree, in traversal
order — the specification-side description of which keys the unused-key
walk warns about. -/
def leafPaths : TomlValue → String → List String
  | .table entries, key => leafPathsTable entries key
  | .array elems, key => leafPathsArray elems key
  | _, key => [key]

/-- The table half: each entry extends the accumulated path with its key. -/
def leafPathsTable : List (String × TomlValue) → String → List String
  | [], _ => []
  | (k, v) :: rest, key =>
    leafPaths v (extendKey key k) ++ leafPathsTable rest key

/-- The array half: elements keep the accumulated path unchanged. -/
def leafPathsArray : List TomlValue → String → List String
  | [], _ => []
  | v :: rest, key => leafPaths v key ++ leafPathsArray rest key

end

/-! ## Lemmas about the profile merge and fan-out -/

/-- Merging an override never changes the profile's name. -/
@[simp] theorem merge_env (p : Profile) (o : Option TomlProfile) :
    (merge p o).env = p.env := by
  cases o <;> rfl

/-- Merging an override never changes the test-execution flag. -/
@[simp] theorem merge_test (p : Profile) (o : Option TomlProfile) :
    (merge p o).test = p.test := by
  cases o <;> rfl

/-- Merging an override never changes the doc flag. -/
@[simp] theorem merge_doc (p : Profile) (o : Option TomlProfile) :
    (merge p o).doc = p.doc := by
  cases o <;> rfl

/-- Merging an override never changes the doctest flag. -/
@[simp] theorem merge_doctest (p : Profile) (o : Option TomlProfile) :
    (merge p o).doctest = p.doctest := by
  cases o <;> rfl

/-- Merging an override never changes the harness flag. -/
@[simp] theorem merge_harness (p : Profile) (o : Option TomlProfile) :
    (merge p o).harness = p.harness := by
  cases o <;> rfl

/-- Merging an override never changes the host-only flag. -/
@[simp] theorem merge_for_host (p : Profile) (o : Option TomlProfile) :
    (merge p o).for_host = p.for_host := by
  cases o <;> rfl

/-- Merging an override never changes the custom-build flag. -/
@[simp] theorem merge_custom_build (p : Profile) (o : Option TomlProfile) :
    (merge p o).custom_build = p.custom_build := by
  cases o <;> rfl

/-- Host-marking never changes the profile's name. -/
@[simp] theorem hostify_env (t : TomlTarget) (p : Profile) :
    (hostify t p).env = p.env := by
  unfold hostify; split <;> rfl

/-- Host-marking never changes the test-execution flag. -/
@[simp] theorem hostify_test (t : TomlTarget) (p : Profile) :
    (hostify t p).test = p.test := by
  unfold hostify; split <;> rfl

/-- Host-marking never changes the doc flag. -/
@[simp] theorem hostify_doc (t : TomlTarget) (p : Profile) :
    (hostify t p).doc = p.doc := by
  unfold hostify; split <;> rfl

/-- Host-marking never changes the doctest flag. -/
@[simp] theorem hostify_doctest (t : TomlTarget) (p : Profile) :
    (hostify t p).doctest = p.doctest := by
  unfold hostify; split <;> rfl

/-- Host-marking never changes the harness flag. -/
@[simp] theorem hostify_harness (t : TomlTarget) (p : Profile) :
    (hostify t p).harness = p.harness := by
  unfold hostify; split <;> rfl

/-- The distinguishing signature is invariant under merging an override. -/
@[simp] theorem sig_merge (p : Profile) (o : Option TomlProfile) :
    (merge p o).sig = p.sig := by
  simp [Profile.sig]

/-- The distinguishing signature is invariant under host-marking. -/
@[simp] theorem sig_hostify (t : TomlTarget) (p : Profile) :
    (hostify t p).sig = p.sig := by
  simp [Profile.sig]

/-- The source's `target_profiles` equals the conditional-segment form with
a uniform host-marking pass. -/
theorem target_profiles_eq (t : TomlTarget) (ps : TomlProfiles)
    (dep : TestDep) :
    target_profiles t ps dep = (profile_variants t ps dep).map (hostify t) := by
  obtain ⟨nm, ct, pa, tt, dt, bb, dd, pl, hh⟩ := t
  rcases tt with _ | _ | _ <;> rcases dd with _ | _ | _ <;>
    rcases bb with _ | _ | _ <;> cases dep <;> rcases pl with _ | _ | _ <;>
    simp [target_profiles, profile_variants, hostify]

/-- The signatures of the variants emitted for one descriptor are pairwise
distinct, whatever the override table and flags. -/
theorem profile_variants_sig_nodup (t : TomlTarget) (ps : TomlProfiles)
    (dep : TestDep) :
    ((profile_variants t ps dep).map Profile.sig).Nodup := by
  unfold profile_variants
  cases dep <;> by_cases h1 : t.test = some false <;>
    by_cases h2 : t.doc = some false <;> by_cases h3 : t.bench = some false <;>
    simp [h1, h2, h3, Profile.sig, Profile.default_dev,
      Profile.default_release, Profile.default_test, Profile.default_doc,
      Profile.default_bench]

/-- The profile variants emitted for one descriptor are pairwise
distinct. -/
theorem target_profiles_nodup (t : TomlTarget) (ps : TomlProfiles)
    (dep : TestDep) : (target_profiles t ps dep).Nodup := by
  have h : ((target_profiles t ps dep).map Profile.sig).Nodup := by
    rw [target_profiles_eq, List.map_map]
    have he : Profile.sig ∘ hostify t = Profile.sig :=
      funext fun p => sig_hostify t p
    rw [he]
    exact profile_variants_sig_nodup t ps dep
  exact h.of_map

/-- The dev-profile variant is always emitted. -/
theorem tp_mem_dev (t : TomlTarget) (ps : TomlProfiles) (dep : TestDep) :
    hostify t (merge Profile.default_dev ps.dev) ∈ target_profiles t ps dep := by
  rw [target_profiles_eq]
  exact List.mem_map_of_mem _ (by unfold profile_variants; simp)

/-- The release-profile variant is always emitted. -/
theorem tp_mem_release (t : TomlTarget) (ps : TomlProfiles) (dep : TestDep) :
    hostify t (merge Profile.default_release ps.release) ∈
      target_profiles t ps dep := by
  rw [target_profiles_eq]
  exact List.mem_map_of_mem _ (by unfold profile_variants; simp)

/-- The test-profile variant is emitted unless the descriptor disables
test participation. -/
theorem tp_mem_test (t : TomlTarget) (ps : TomlProfiles) (dep : TestDep)
    (h : t.test ≠ some false) :
    hostify t (merge Profile.default_test ps.test) ∈ target_profiles t ps dep := by
  rw [target_profiles_eq]
  exact List.mem_map_of_mem _ (by unfold profile_variants; simp [h])

/-- The doc-profile variant, carrying the doctest flag (default enabled),
is emitted unless the descriptor disables doc participation. -/
theorem tp_mem_doc (t : TomlTarget) (ps : TomlProfiles) (dep : TestDep)
    (h : t.doc ≠ some false) :
    hostify t (merge { Profile.default_doc with doctest := t.doctest.getD true }
      ps.doc) ∈ target_profiles t ps dep := by
  rw [target_profiles_eq]
  exact List.mem_map_of_mem _ (by unfold profile_variants; simp [h])

/-- The bench-profile variant is emitted unless the descriptor disables
bench participation. -/
theorem tp_mem_bench (t : TomlTarget) (ps : TomlProfiles) (dep : TestDep)
    (h : t.bench ≠ some false) :
    hostify t (merge Profile.default_bench ps.bench) ∈
      target_profiles t ps dep := by
  rw [target_profiles_eq]
  exact List.mem_map_of_mem _ (by unfold profile_variants; simp [h])

/-- When a test dependency is needed, the non-executing test-profile
variant is emitted. -/
theorem tp_mem_needed_test (t : TomlTarget) (ps : TomlProfiles) :
    hostify t (merge { Profile.default_test with test := false } ps.test) ∈
      target_profiles t ps .Needed := by
  rw [target_profiles_eq]
  exact List.mem_map_of_mem _ (by unfold profile_variants; simp)

/-- When a test dependency is needed, the non-documenting doc-profile
variant is emitted. -/
theorem tp_mem_needed_doc (t : TomlTarget) (ps : TomlProfiles) :
    hostify t (merge { Profile.default_doc with doc := false } ps.doc) ∈
      target_profiles t ps .Needed := by
  rw [target_profiles_eq]
  exact List.mem_map_of_mem _ (by unfold profile_variants; simp)

/-- When a test dependency is needed, the non-executing bench-profile
variant is emitted. -/
theorem tp_mem_needed_bench (t : TomlTarget) (ps : TomlProfiles) :
    hostify t (merge { Profile.default_bench with test := false } ps.bench) ∈
      target_profiles t ps .Needed := by
  rw [target_profiles_eq]
  exact List.mem_map_of_mem _ (by unfold profile_variants; simp)

/-! ## Role characterization of the emitted segments -/

/-- Every target emitted for the library descriptor has the library role. -/
theorem lib_targets_kind (l : TomlTarget) (dep : TestDep) (md : Metadata)
    (ps : TomlProfiles) : ∀ tg ∈ lib_targets l dep md ps, tg.kind = .lib := by
  intro tg htg
  obtain ⟨p, _, rfl⟩ := List.mem_map.1 htg
  rfl

/-- Every target emitted for the binary descriptors has the binary role. -/
theorem bin_targets_kind (bins : List TomlTarget) (dep : TestDep)
    (md : Metadata) (ps : TomlProfiles) (dflt : TomlTarget → String) :
    ∀ tg ∈ bin_targets bins dep md ps dflt, tg.kind = .bin := by
  intro tg htg
  obtain ⟨b, _, hb⟩ := List.mem_flatMap.1 htg
  obtain ⟨p, _, rfl⟩ := List.mem_map.1 hb
  rfl

/-- Every target emitted for the custom build script has that role. -/
theorem custom_build_target_kind (cmd : String) (ps : TomlProfiles)
    (stem : String) :
    ∀ tg ∈ custom_build_target cmd ps stem, tg.kind = .customBuild := by
  intro tg htg
  obtain ⟨p, _, rfl⟩ := List.mem_map.1 htg
  rfl

/-- Every target emitted for the example descriptors has the example
role. -/
theorem example_targets_kind (ex : List TomlTarget) (ps : TomlProfiles)
    (dflt : TomlTarget → String) :
    ∀ tg ∈ example_targets ex ps dflt, tg.kind = .example := by
  intro tg htg
  obtain ⟨e, _, rfl⟩ := List.mem_map.1 htg
  rfl

/-- Every target emitted for the integration-test descriptors has that
role. -/
theorem test_targets_kind (ts : List TomlTarget) (md : Metadata)
    (ps : TomlProfiles) (dflt : TomlTarget → String) :
    ∀ tg ∈ test_targets ts md ps dflt, tg.kind = .testKind := by
  intro tg htg
  obtain ⟨e, _, rfl⟩ := List.mem_map.1 htg
  rfl

/-- Every target emitted for the benchmark descriptors has that role. -/
theorem bench_targets_kind (bs : List TomlTarget) (md : Metadata)
    (ps : TomlProfiles) (dflt : TomlTarget → String) :
    ∀ tg ∈ bench_targets bs md ps dflt, tg.kind = .bench := by
  intro tg htg
  obtain ⟨e, _, rfl⟩ := List.mem_map.1 htg
  rfl

/-! ## Membership transfer into `normalize` -/

/-- Each profile variant of the library descriptor yields a library-role
target. -/
theorem lib_targets_mem_profile (l : TomlTarget) (dep : TestDep)
    (md : Metadata) (ps : TomlProfiles) (p : Profile)
    (hp : p ∈ target_profiles l ps dep) :
    ∃ tg ∈ lib_targets l dep md ps, tg.kind = .lib ∧ tg.profile = p :=
  ⟨_, List.mem_map_of_mem _ hp, rfl, rfl⟩

/-- Each profile variant of a binary descriptor yields a binary-role target
with that descriptor's name. -/
theorem bin_targets_mem_profile (bins : List TomlTarget) (dep : TestDep)
    (md : Metadata) (ps : TomlProfiles) (dflt : TomlTarget → String)
    (b : TomlTarget) (hb : b ∈ bins) (p : Profile)
    (hp : p ∈ target_profiles b ps dep) :
    ∃ tg ∈ bin_targets bins dep md ps dflt,
      tg.kind = .bin ∧ tg.name = b.name ∧ tg.profile = p :=
  ⟨_, List.mem_flatMap.2 ⟨b, hb, List.mem_map_of_mem _ hp⟩, rfl, rfl, rfl⟩

/-- Nonempty example/test/benchmark descriptor lists make the test
dependency needed. -/
theorem test_dep_needed (ex ts bs : List TomlTarget)
    (h : ex ≠ [] ∨ ts ≠ [] ∨ bs ≠ []) :
    (if ex.length > 0 || ts.length > 0 || bs.length > 0 then TestDep.Needed
     else TestDep.NotNeeded) = TestDep.Needed := by
  rcases h with h | h | h <;> simp [List.length_pos.2 h]

/-- A library-role target with any of the library's profile variants is in
the normalized output. -/
theorem normalize_mem_lib (l : TomlTarget) (ls bins : List TomlTarget)
    (cb : Option String) (ex ts bs : List TomlTarget) (md : Metadata)
    (ps : TomlProfiles) (p : Profile)
    (hp : p ∈ target_profiles l ps .Needed) :
    ∃ tg ∈ normalize (l :: ls) bins cb ex ts bs md ps,
      tg.kind = .lib ∧ tg.profile = p := by
  obtain ⟨tg, htg, hk, hprof⟩ := lib_targets_mem_profile l .Needed md ps p hp
  refine ⟨tg, ?_, hk, hprof⟩
  unfold normalize
  cases bins <;> simp [List.mem_append, htg]

/-- With no library, a binary-role target with any of a binary's profile
variants (test dependency needed) is in the normalized output, provided
some example/test/benchmark descriptor exists. -/
theorem normalize_mem_bin_nolib (bins : List TomlTarget) (cb : Option String)
    (ex ts bs : List TomlTarget) (md : Metadata) (ps : TomlProfiles)
    (hne : ex ≠ [] ∨ ts ≠ [] ∨ bs ≠ []) (b : TomlTarget) (hb : b ∈ bins)
    (p : Profile) (hp : p ∈ target_profiles b ps .Needed) :
    ∃ tg ∈ normalize [] bins cb ex ts bs md ps,
      tg.kind = .bin ∧ tg.name = b.name ∧ tg.profile = p := by
  obtain ⟨tg, htg, hk, hn, hprof⟩ := bin_targets_mem_profile bins .Needed md ps
    (fun bin => "src/" ++ bin.name ++ ".rs") b hb p hp
  refine ⟨tg, ?_, hk, hn, hprof⟩
  unfold normalize
  rw [test_dep_needed ex ts bs hne]
  cases bins with
  | nil => exact absurd hb (List.not_mem_nil b)
  | cons x xs => simp [List.mem_append, htg]

/-! ## Filtering the normalized output by role -/

/-- Filtering a role-homogeneous segment keeps all of it or none of it. -/
theorem filter_kind_of_all (L : List Target) (k0 k : TargetKind) :
    (∀ x ∈ L, x.kind = k0) →
      targetsOfKind k L = if k = k0 then L else [] := by
  induction L with
  | nil => intro _; simp [targetsOfKind]
  | cons x xs ih =>
    intro h
    have hx : x.kind = k0 := h x (List.mem_cons_self x xs)
    have hxs := ih (fun y hy => h y (List.mem_cons_of_mem x hy))
    unfold targetsOfKind at hxs ⊢
    rw [List.filter_cons]
    by_cases hk : k = k0
    · subst hk; simp [hx, hxs]
    · simp [hx, Ne.symm hk, hk, hxs]

/-- Role filtering distributes over concatenation. -/
theorem targetsOfKind_append (k : TargetKind) (A B : List Target) :
    targetsOfKind k (A ++ B) = targetsOfKind k A ++ targetsOfKind k B := by
  simp [targetsOfKind]

/-- The example-role part of the normalized output is exactly the
example segment. -/
theorem targetsOfKind_normalize_example (libs bins : List TomlTarget)
    (cb : Option String) (ex ts bs : List TomlTarget) (md : Metadata)
    (ps : TomlProfiles) :
    targetsOfKind .example (normalize libs bins cb ex ts bs md ps) =
      example_targets ex ps (fun e => "examples/" ++ e.name ++ ".rs") := by
  unfold normalize
  rcases libs with _ | ⟨l, ls⟩ <;> rcases bins with _ | ⟨b, bs'⟩ <;>
    rcases cb with _ | cmd <;>
    simp [targetsOfKind_append,
      filter_kind_of_all _ _ _ (lib_targets_kind _ _ _ _),
      filter_kind_of_all _ _ _ (bin_targets_kind _ _ _ _ _),
      filter_kind_of_all _ _ _ (custom_build_target_kind _ _ _),
      filter_kind_of_all _ _ _ (example_targets_kind _ _ _),
      filter_kind_of_all _ _ _ (test_targets_kind _ _ _ _),
      filter_kind_of_all _ _ _ (bench_targets_kind _ _ _ _)]

/-- The integration-test-role part of the normalized output is exactly the
test segment. -/
theorem targetsOfKind_normalize_test (libs bins : List TomlTarget)
    (cb : Option String) (ex ts bs : List TomlTarget) (md : Metadata)
    (ps : TomlProfiles) :
    targetsOfKind .testKind (normalize libs bins cb ex ts bs md ps) =
      test_targets ts md ps
        (fun t => if t.name = "test" then "src/test.rs"
                  else "tests/" ++ t.name ++ ".rs") := by
  unfold normalize
  rcases libs with _ | ⟨l, ls⟩ <;> rcases bins with _ | ⟨b, bs'⟩ <;>
    rcases cb with _ | cmd <;>
    simp [targetsOfKind_append,
      filter_kind_of_all _ _ _ (lib_targets_kind _ _ _ _),
      filter_kind_of_all _ _ _ (bin_targets_kind _ _ _ _ _),
      filter_kind_of_all _ _ _ (custom_build_target_kind _ _ _),
      filter_kind_of_all _ _ _ (example_targets_kind _ _ _),
      filter_kind_of_all _ _ _ (test_targets_kind _ _ _ _),
      filter_kind_of_all _ _ _ (bench_targets_kind _ _ _ _)]

/-- The benchmark-role part of the normalized output is exactly the bench
segment. -/
theorem targetsOfKind_normalize_bench (libs bins : List TomlTarget)
    (cb : Option String) (ex ts bs : List TomlTarget) (md : Metadata)
    (ps : TomlProfiles) :
    targetsOfKind .bench (normalize libs bins cb ex ts bs md ps) =
      bench_targets bs md ps
        (fun b => if b.name = "bench" then "src/bench.rs"
                  else "benches/" ++ b.name ++ ".rs") := by
  unfold normalize
  rcases libs with _ | ⟨l, ls⟩ <;> rcases bins with _ | ⟨b, bs'⟩ <;>
    rcases cb with _ | cmd <;>
    simp [targetsOfKind_append,
      filter_kind_of_all _ _ _ (lib_targets_kind _ _ _ _),
      filter_kind_of_all _ _ _ (bin_targets_kind _ _ _ _ _),
      filter_kind_of_all _ _ _ (custom_build_target_kind _ _ _),
      filter_kind_of_all _ _ _ (example_targets_kind _ _ _),
      filter_kind_of_all _ _ _ (test_targets_kind _ _ _ _),
      filter_kind_of_all _ _ _ (bench_targets_kind _ _ _ _)]

/-- The library-role part of the normalized output is the library segment
of the first library descriptor. -/
theorem targetsOfKind_normalize_lib (l : TomlTarget)
    (ls bins : List TomlTarget) (cb : Option String)
    (ex ts bs : List TomlTarget) (md : Metadata) (ps : TomlProfiles) :
    targetsOfKind .lib (normalize (l :: ls) bins cb ex ts bs md ps) =
      lib_targets l .Needed md ps := by
  unfold normalize
  rcases bins with _ | ⟨b, bs'⟩ <;> rcases cb with _ | cmd <;>
    simp [targetsOfKind_append,
      filter_kind_of_all _ _ _ (lib_targets_kind _ _ _ _),
      filter_kind_of_all _ _ _ (bin_targets_kind _ _ _ _ _),
      filter_kind_of_all _ _ _ (custom_build_target_kind _ _ _),
      filter_kind_of_all _ _ _ (example_targets_kind _ _ _),
      filter_kind_of_all _ _ _ (test_targets_kind _ _ _ _),
      filter_kind_of_all _ _ _ (bench_targets_kind _ _ _ _)]

/-- Projecting the binary segment to profiles forgets the default-path
template and yields each descriptor's fan-out. -/
theorem bin_targets_map_profile (bins : List TomlTarget) (dep : TestDep)
    (md : Metadata) (ps : TomlProfiles) (dflt : TomlTarget → String) :
    (bin_targets bins dep md ps dflt).map Target.profile =
      bins.flatMap (fun b => target_profiles b ps dep) := by
  simp only [bin_targets, List.map_flatMap, List.map_map]
  exact List.flatMap_congr (fun b _ => List.map_id'' (fun p => rfl) _)

/-- The binary-role part of the normalized output is the binary segment
(under either default-path template). -/
theorem targetsOfKind_normalize_bin (libs bins : List TomlTarget)
    (cb : Option String) (ex ts bs : List TomlTarget) (md : Metadata)
    (ps : TomlProfiles) :
    (targetsOfKind .bin (normalize libs bins cb ex ts bs md ps)).map
        Target.profile =
      bins.flatMap (fun b => target_profiles b ps
        (if ex.length > 0 || ts.length > 0 || bs.length > 0 then .Needed
         else .NotNeeded)) := by
  unfold normalize
  rcases libs with _ | ⟨l, ls⟩ <;> rcases bins with _ | ⟨b, bs'⟩ <;>
    rcases cb with _ | cmd <;>
    simp [targetsOfKind_append,
      filter_kind_of_all _ _ _ (lib_targets_kind _ _ _ _),
      filter_kind_of_all _ _ _ (bin_targets_kind _ _ _ _ _),
      filter_kind_of_all _ _ _ (custom_build_target_kind _ _ _),
      filter_kind_of_all _ _ _ (example_targets_kind _ _ _),
      filter_kind_of_all _ _ _ (test_targets_kind _ _ _ _),
      filter_kind_of_all _ _ _ (bench_targets_kind _ _ _ _),
      bin_targets_map_profile]

/-- C1: in a manifest whose synthesized targets include at least one
example, integration-test or benchmark descriptor, the library (the spec's
"test-profile variants" being those in the test environment, with the
`test` flag controlling compilation under the test harness) emits, besides
its normal test-profile variant, harness-disabled (non-executing)
test/doc/bench variants; when no library exists, every binary emits those
extra variants instead. -/
theorem c1_linkable_nonexecuting_variants (libs bins ex ts bs : List TomlTarget)
    (cb : Option String) (md : Metadata) (ps : TomlProfiles)
    (hne : ex ≠ [] ∨ ts ≠ [] ∨ bs ≠ []) :
    (∀ l ls, libs = l :: ls →
      (l.test ≠ some false →
        ∃ tg ∈ normalize libs bins cb ex ts bs md ps,
          tg.kind = .lib ∧ tg.profile.env = "test" ∧ tg.profile.test = true) ∧
      (∃ tg ∈ normalize libs bins cb ex ts bs md ps,
        tg.kind = .lib ∧ tg.profile.env = "test" ∧ tg.profile.test = false) ∧
      (∃ tg ∈ normalize libs bins cb ex ts bs md ps,
        tg.kind = .lib ∧ tg.profile.env = "doc" ∧ tg.profile.doc = false) ∧
      (∃ tg ∈ normalize libs bins cb ex ts bs md ps,
        tg.kind = .lib ∧ tg.profile.env = "bench" ∧ tg.profile.test = false)) ∧
    (libs = [] → ∀ b ∈ bins,
      (∃ tg ∈ normalize libs bins cb ex ts bs md ps,
        tg.kind = .bin ∧ tg.name = b.name ∧ tg.profile.env = "test" ∧
          tg.profile.test = false) ∧
      (∃ tg ∈ normalize libs bins cb ex ts bs md ps,
        tg.kind = .bin ∧ tg.name = b.name ∧ tg.profile.env = "doc" ∧
          tg.profile.doc = false) ∧
      (∃ tg ∈ normalize libs bins cb ex ts bs md ps,
        tg.kind = .bin ∧ tg.name = b.name ∧ tg.profile.env = "bench" ∧
          tg.profile.test = false)) := by
  constructor
  · rintro l ls rfl
    refine ⟨?_, ?_, ?_, ?_⟩
    · intro hlt
      obtain ⟨tg, htg, hk, hp⟩ := normalize_mem_lib l ls bins cb ex ts bs md ps
        _ (tp_mem_test l ps .Needed hlt)
      exact ⟨tg, htg, hk, by simp [hp, Profile.default_test],
        by simp [hp, Profile.default_test]⟩
    · obtain ⟨tg, htg, hk, hp⟩ := normalize_mem_lib l ls bins cb ex ts bs md ps
        _ (tp_mem_needed_test l ps)
      exact ⟨tg, htg, hk, by simp [hp, Profile.default_test],
        by simp [hp]⟩
    · obtain ⟨tg, htg, hk, hp⟩ := normalize_mem_lib l ls bins cb ex ts bs md ps
        _ (tp_mem_needed_doc l ps)
      exact ⟨tg, htg, hk, by simp [hp, Profile.default_doc],
        by simp [hp]⟩
    · obtain ⟨tg, htg, hk, hp⟩ := normalize_mem_lib l ls bins cb ex ts bs md ps
        _ (tp_mem_needed_bench l ps)
      exact ⟨tg, htg, hk,
        by simp [hp, Profile.default_bench, Profile.default_release],
        by simp [hp]⟩
  · rintro rfl b hb
    refine ⟨?_, ?_, ?_⟩
    · obtain ⟨tg, htg, hk, hn, hp⟩ := normalize_mem_bin_nolib bins cb ex ts bs
        md ps hne b hb _ (tp_mem_needed_test b ps)
      exact ⟨tg, htg, hk, hn, by simp [hp, Profile.default_test],
        by simp [hp]⟩
    · obtain ⟨tg, htg, hk, hn, hp⟩ := normalize_mem_bin_nolib bins cb ex ts bs
        md ps hne b hb _ (tp_mem_needed_doc b ps)
      exact ⟨tg, htg, hk, hn, by simp [hp, Profile.default_doc],
        by simp [hp]⟩
    · obtain ⟨tg, htg, hk, hn, hp⟩ := normalize_mem_bin_nolib bins cb ex ts bs
        md ps hne b hb _ (tp_mem_needed_bench b ps)
      exact ⟨tg, htg, hk, hn,
        by simp [hp, Profile.default_bench, Profile.default_release],
        by simp [hp]⟩

/-- A test-executing test-profile variant is emitted iff the descriptor
does not disable test participation. -/
theorem tp_test_variant_iff (t : TomlTarget) (ps : TomlProfiles)
    (dep : TestDep) :
    (∃ p ∈ target_profiles t ps dep, p.env = "test" ∧ p.test = true) ↔
      t.test ≠ some false := by
  constructor
  · rintro ⟨p, hp, he, ht⟩ hfalse
    rw [target_profiles_eq] at hp
    obtain ⟨q, hq, rfl⟩ := List.mem_map.1 hp
    have hsig : q.sig ∈ (profile_variants t ps dep).map Profile.sig :=
      List.mem_map_of_mem _ hq
    have he' : q.env = "test" := by simpa using he
    have ht' : q.test = true := by simpa using ht
    rw [show q.sig = ("test", true, q.doc) by simp [Profile.sig, he', ht']]
      at hsig
    unfold profile_variants at hsig
    by_cases h2 : t.doc = some false <;> by_cases h3 : t.bench = some false <;>
      cases dep <;>
      simp [hfalse, h2, h3, Profile.sig, Profile.default_dev,
        Profile.default_release, Profile.default_test, Profile.default_doc,
        Profile.default_bench] at hsig
  · intro h
    exact ⟨_, tp_mem_test t ps dep h, by simp [Profile.default_test],
      by simp [Profile.default_test]⟩

/-- A documenting doc-profile variant, carrying the doctest flag
(default enabled), is emitted iff the descriptor does not disable doc
participation. -/
theorem tp_doc_variant_iff (t : TomlTarget) (ps : TomlProfiles)
    (dep : TestDep) :
    (∃ p ∈ target_profiles t ps dep,
        p.env = "doc" ∧ p.doc = true ∧ p.doctest = t.doctest.getD true) ↔
      t.doc ≠ some false := by
  constructor
  · rintro ⟨p, hp, he, hd, _⟩ hfalse
    rw [target_profiles_eq] at hp
    obtain ⟨q, hq, rfl⟩ := List.mem_map.1 hp
    have hsig : q.sig ∈ (profile_variants t ps dep).map Profile.sig :=
      List.mem_map_of_mem _ hq
    have he' : q.env = "doc" := by simpa using he
    have hd' : q.doc = true := by simpa using hd
    rw [show q.sig = ("doc", q.test, true) by simp [Profile.sig, he', hd']]
      at hsig
    unfold profile_variants at hsig
    by_cases h1 : t.test = some false <;> by_cases h3 : t.bench = some false <;>
      cases dep <;>
      simp [hfalse, h1, h3, Profile.sig, Profile.default_dev,
        Profile.default_release, Profile.default_test, Profile.default_doc,
        Profile.default_bench] at hsig
  · intro h
    exact ⟨_, tp_mem_doc t ps dep h, by simp [Profile.default_doc],
      by simp [Profile.default_doc], by simp⟩

/-- A test-executing bench-profile variant is emitted iff the descriptor
does not disable bench participation. -/
theorem tp_bench_variant_iff (t : TomlTarget) (ps : TomlProfiles)
    (dep : TestDep) :
    (∃ p ∈ target_profiles t ps dep, p.env = "bench" ∧ p.test = true) ↔
      t.bench ≠ some false := by
  constructor
  · rintro ⟨p, hp, he, ht⟩ hfalse
    rw [target_profiles_eq] at hp
    obtain ⟨q, hq, rfl⟩ := List.mem_map.1 hp
    have hsig : q.sig ∈ (profile_variants t ps dep).map Profile.sig :=
      List.mem_map_of_mem _ hq
    have he' : q.env = "bench" := by simpa using he
    have ht' : q.test = true := by simpa using ht
    rw [show q.sig = ("bench", true, q.doc) by simp [Profile.sig, he', ht']]
      at hsig
    unfold profile_variants at hsig
    by_cases h1 : t.test = some false <;> by_cases h2 : t.doc = some false <;>
      cases dep <;>
      simp [hfalse, h1, h2, Profile.sig, Profile.default_dev,
        Profile.default_release, Profile.default_test, Profile.default_doc,
        Profile.default_bench] at hsig
  · intro h
    exact ⟨_, tp_mem_bench t ps dep h,
      by simp [Profile.default_bench, Profile.default_release],
      by simp [Profile.default_bench]⟩

/-- C1 witness: a concrete manifest with a library and one example, on
which the harness-disabled test-profile library variant is emitted. -/
theorem c1_linkable_nonexecuting_variants_witness :
    (([ex0] : List TomlTarget) ≠ [] ∨ ([] : List TomlTarget) ≠ [] ∨
      ([] : List TomlTarget) ≠ []) ∧
    (∃ tg ∈ normalize [l0] [] none [ex0] [] [] md0 ps0,
      tg.kind = .lib ∧ tg.profile.env = "test" ∧ tg.profile.test = false) :=
  ⟨Or.inl (by decide),
   ((c1_linkable_nonexecuting_variants [l0] [] [ex0] [] [] none md0 ps0
      (Or.inl (by decide))).1 l0 [] rfl).2.1⟩

/-- C2 counterexample: on a concrete manifest with a library and one
example, the example descriptor's emitted variants contain no dev-profile
variant at all, refuting the claimed fan-out for example descriptors. -/
theorem c2_counterexample_no_dev_for_example :
    ¬ ∃ tg ∈ normalize [l0] [] none [ex0] [] [] md0 ps0,
        tg.kind = .example ∧ tg.profile.env = "dev" := by
  decide

/-- C2 amended: the dev/release/test/doc/bench fan-out (merging the
matching override onto built-in defaults) holds for the library and binary
descriptors, which are the ones emitted through `target_profiles`; example
descriptors emit exactly one non-executing test-profile variant each, and
integration-test and benchmark descriptors exactly one harness-controlled
test- resp. bench-profile variant each. -/
theorem c2_amended_fanout (t : TomlTarget) (ps : TomlProfiles)
    (dep : TestDep) (libs bins ex ts bs : List TomlTarget)
    (cb : Option String) (md : Metadata) :
    (∃ p ∈ target_profiles t ps dep,
        p = hostify t (merge Profile.default_dev ps.dev)) ∧
    (∃ p ∈ target_profiles t ps dep,
        p = hostify t (merge Profile.default_release ps.release)) ∧
    ((∃ p ∈ target_profiles t ps dep, p.env = "test" ∧ p.test = true) ↔
        t.test ≠ some false) ∧
    ((∃ p ∈ target_profiles t ps dep,
        p.env = "doc" ∧ p.doc = true ∧ p.doctest = t.doctest.getD true) ↔
        t.doc ≠ some false) ∧
    ((∃ p ∈ target_profiles t ps dep, p.env = "bench" ∧ p.test = true) ↔
        t.bench ≠ some false) ∧
    (∀ l ls, libs = l :: ls →
      (targetsOfKind .lib (normalize libs bins cb ex ts bs md ps)).map
          Target.profile = target_profiles l ps .Needed) ∧
    ((targetsOfKind .bin (normalize libs bins cb ex ts bs md ps)).map
        Target.profile =
      bins.flatMap (fun b => target_profiles b ps
        (if ex.length > 0 || ts.length > 0 || bs.length > 0 then .Needed
         else .NotNeeded))) ∧
    ((targetsOfKind .example (normalize libs bins cb ex ts bs md ps)).map
        Target.profile =
      ex.map (fun _ => merge { Profile.default_test with test := false }
        ps.test)) ∧
    ((targetsOfKind .testKind (normalize libs bins cb ex ts bs md ps)).map
        Target.profile =
      ts.map (fun e => merge { Profile.default_test with
        harness := e.harness.getD true } ps.test)) ∧
    ((targetsOfKind .bench (normalize libs bins cb ex ts bs md ps)).map
        Target.profile =
      bs.map (fun e => merge { Profile.default_bench with
        harness := e.harness.getD true } ps.bench)) := by
  refine ⟨⟨_, tp_mem_dev t ps dep, rfl⟩, ⟨_, tp_mem_release t ps dep, rfl⟩,
    tp_test_variant_iff t ps dep, tp_doc_variant_iff t ps dep,
    tp_bench_variant_iff t ps dep, ?_, ?_, ?_, ?_, ?_⟩
  · rintro l ls rfl
    rw [targetsOfKind_normalize_lib]
    simp only [lib_targets, List.map_map]
    exact List.map_id'' (fun p => rfl) _
  · exact targetsOfKind_normalize_bin libs bins cb ex ts bs md ps
  · rw [targetsOfKind_normalize_example]
    unfold example_targets
    rw [List.map_map]
    exact List.map_congr_left (fun e _ => rfl)
  · rw [targetsOfKind_normalize_test]
    unfold test_targets
    rw [List.map_map]
    exact List.map_congr_left (fun e _ => rfl)
  · rw [targetsOfKind_normalize_bench]
    unfold bench_targets
    rw [List.map_map]
    exact List.map_congr_left (fun e _ => rfl)

/-- C2 amended witness: the fan-out statement instantiated on a concrete
library-plus-example manifest, the inner hypothesis discharged there. -/
theorem c2_amended_fanout_witness :
    (targetsOfKind .lib (normalize [l0] [] none [ex0] [] [] md0 ps0)).map
        Target.profile = target_profiles l0 ps0 .Needed ∧
    (targetsOfKind .example (normalize [l0] [] none [ex0] [] [] md0 ps0)).map
        Target.profile =
      [ex0].map (fun _ => merge { Profile.default_test with test := false }
        ps0.test) :=
  ⟨((c2_amended_fanout l0 ps0 .Needed [l0] [] [ex0] [] [] none
      md0).2.2.2.2.2.1) l0 [] rfl,
   (c2_amended_fanout l0 ps0 .Needed [l0] [] [ex0] [] [] none
      md0).2.2.2.2.2.2.2.1⟩

/-! ## Uniqueness of the (name, role, Profile) triples -/

/-- The library segment's triples are pairwise distinct. -/
theorem lib_targets_triple_nodup (l : TomlTarget) (dep : TestDep)
    (md : Metadata) (ps : TomlProfiles) :
    ((lib_targets l dep md ps).map targetTriple).Nodup := by
  have hproj : (((lib_targets l dep md ps).map targetTriple).map
      (fun x => x.2.2)) = target_profiles l ps dep := by
    rw [List.map_map]
    unfold lib_targets
    rw [List.map_map]
    exact List.map_id'' (fun p => rfl) _
  exact List.Nodup.of_map _ (hproj ▸ target_profiles_nodup l ps dep)

/-- Every triple from the binary segment carries one of the declared
binary names. -/
theorem bin_targets_triple_fst (bins : List TomlTarget) (dep : TestDep)
    (md : Metadata) (ps : TomlProfiles) (dflt : TomlTarget → String) :
    ∀ x ∈ (bin_targets bins dep md ps dflt).map targetTriple,
      x.1 ∈ bins.map TomlTarget.name := by
  intro x hx
  obtain ⟨tg, htg, rfl⟩ := List.mem_map.1 hx
  obtain ⟨b, hb, hmem⟩ := List.mem_flatMap.1 htg
  obtain ⟨p, _, rfl⟩ := List.mem_map.1 hmem
  exact List.mem_map_of_mem _ hb

/-- The triples of a single binary descriptor's fan-out are pairwise
distinct. -/
theorem bin_targets_single_triple_nodup (b : TomlTarget) (dep : TestDep)
    (md : Metadata) (ps : TomlProfiles) (dflt : TomlTarget → String) :
    ((bin_targets [b] dep md ps dflt).map targetTriple).Nodup := by
  have hproj : (((bin_targets [b] dep md ps dflt).map targetTriple).map
      (fun x => x.2.2)) = target_profiles b ps dep := by
    rw [List.map_map]
    unfold bin_targets
    simp only [List.flatMap_cons, List.flatMap_nil, List.append_nil]
    rw [List.map_map]
    exact List.map_id'' (fun p => rfl) _
  exact List.Nodup.of_map _ (hproj ▸ target_profiles_nodup b ps dep)

/-- The binary segment's triples are pairwise distinct when the declared
binary names are. -/
theorem bin_targets_triple_nodup (bins : List TomlTarget) (dep : TestDep)
    (md : Metadata) (ps : TomlProfiles) (dflt : TomlTarget → String) :
    (bins.map TomlTarget.name).Nodup →
      ((bin_targets bins dep md ps dflt).map targetTriple).Nodup := by
  induction bins with
  | nil => intro _; simp [bin_targets]
  | cons b rest ih =>
    intro h
    rw [List.map_cons] at h
    obtain ⟨hb, hrest⟩ := List.nodup_cons.1 h
    have hsplit : bin_targets (b :: rest) dep md ps dflt =
        bin_targets [b] dep md ps dflt ++ bin_targets rest dep md ps dflt := by
      simp [bin_targets]
    rw [hsplit, List.map_append]
    refine List.Nodup.append
      (bin_targets_single_triple_nodup b dep md ps dflt) (ih hrest) ?_
    intro x hx1 hx2
    have h1 : x.1 ∈ [b].map TomlTarget.name :=
      bin_targets_triple_fst [b] dep md ps dflt x hx1
    have h2 : x.1 ∈ rest.map TomlTarget.name :=
      bin_targets_triple_fst rest dep md ps dflt x hx2
    simp only [List.map_cons, List.map_nil, List.mem_singleton] at h1
    exact hb (h1 ▸ h2)

/-- The example segment's triples are pairwise distinct when the example
names are. -/
theorem example_targets_triple_nodup (ex : List TomlTarget)
    (ps : TomlProfiles) (dflt : TomlTarget → String)
    (h : (ex.map TomlTarget.name).Nodup) :
    ((example_targets ex ps dflt).map targetTriple).Nodup := by
  have hproj : (((example_targets ex ps dflt).map targetTriple).map
      (fun x => x.1)) = ex.map TomlTarget.name := by
    rw [List.map_map]
    unfold example_targets
    rw [List.map_map]
    exact List.map_congr_left (fun e _ => rfl)
  exact List.Nodup.of_map _ (hproj ▸ h)

/-- The integration-test segment's triples are pairwise distinct when the
test names are. -/
theorem test_targets_triple_nodup (ts : List TomlTarget) (md : Metadata)
    (ps : TomlProfiles) (dflt : TomlTarget → String)
    (h : (ts.map TomlTarget.name).Nodup) :
    ((test_targets ts md ps dflt).map targetTriple).Nodup := by
  have hproj : (((test_targets ts md ps dflt).map targetTriple).map
      (fun x => x.1)) = ts.map TomlTarget.name := by
    rw [List.map_map]
    unfold test_targets
    rw [List.map_map]
    exact List.map_congr_left (fun e _ => rfl)
  exact List.Nodup.of_map _ (hproj ▸ h)

/-- The benchmark segment's triples are pairwise distinct when the bench
names are. -/
theorem bench_targets_triple_nodup (bs : List TomlTarget) (md : Metadata)
    (ps : TomlProfiles) (dflt : TomlTarget → String)
    (h : (bs.map TomlTarget.name).Nodup) :
    ((bench_targets bs md ps dflt).map targetTriple).Nodup := by
  have hproj : (((bench_targets bs md ps dflt).map targetTriple).map
      (fun x => x.1)) = bs.map TomlTarget.name := by
    rw [List.map_map]
    unfold bench_targets
    rw [List.map_map]
    exact List.map_congr_left (fun e _ => rfl)
  exact List.Nodup.of_map _ (hproj ▸ h)

/-- The custom-build segment is a single target, so its triples are
trivially distinct. -/
theorem custom_build_triple_nodup (cmd : String) (ps : TomlProfiles)
    (stem : String) :
    ((custom_build_target cmd ps stem).map targetTriple).Nodup := by
  simp [custom_build_target]

/-- A role-homogeneous segment avoids every other role. -/
theorem kind_ne_of_all {S : List Target} {k k' : TargetKind}
    (h : ∀ tg ∈ S, tg.kind = k) (hne : k ≠ k') :
    ∀ tg ∈ S, tg.kind ≠ k' :=
  fun tg htg he => hne ((h tg htg).symm.trans he)

/-- Appending a role-homogeneous segment to targets of other roles
preserves distinctness of the triples. -/
theorem triple_nodup_append_of_kind {A B : List Target} {k : TargetKind}
    (hA : ∀ tg ∈ A, tg.kind = k) (hB : ∀ tg ∈ B, tg.kind ≠ k)
    (nA : (A.map targetTriple).Nodup) (nB : (B.map targetTriple).Nodup) :
    (((A ++ B)).map targetTriple).Nodup := by
  rw [List.map_append]
  refine List.Nodup.append nA nB ?_
  intro x hxA hxB
  obtain ⟨a, ha, rfl⟩ := List.mem_map.1 hxA
  obtain ⟨b, hb, he⟩ := List.mem_map.1 hxB
  have hbk : b.kind = k := by
    have : (targetTriple b).2.1 = (targetTriple a).2.1 := by rw [he]
    simpa [targetTriple, hA a ha] using this
  exact hB b hb hbk

/-- Distinct-role segments with internally distinct triples concatenate to
a list with pairwise-distinct triples. -/
theorem six_segments_triple_nodup (L1 L2 L3 L4 L5 L6 : List Target)
    (h1 : ∀ tg ∈ L1, tg.kind = .lib) (h2 : ∀ tg ∈ L2, tg.kind = .bin)
    (h3 : ∀ tg ∈ L3, tg.kind = .customBuild)
    (h4 : ∀ tg ∈ L4, tg.kind = .example)
    (h5 : ∀ tg ∈ L5, tg.kind = .testKind)
    (h6 : ∀ tg ∈ L6, tg.kind = .bench)
    (n1 : (L1.map targetTriple).Nodup) (n2 : (L2.map targetTriple).Nodup)
    (n3 : (L3.map targetTriple).Nodup) (n4 : (L4.map targetTriple).Nodup)
    (n5 : (L5.map targetTriple).Nodup) (n6 : (L6.map targetTriple).Nodup) :
    ((L1 ++ (L2 ++ (L3 ++ (L4 ++ (L5 ++ L6))))).map targetTriple).Nodup := by
  refine triple_nodup_append_of_kind h1 ?_ n1 ?_
  · intro tg htg
    simp only [List.mem_append] at htg
    rcases htg with h | h | h | h | h
    · simp [h2 tg h]
    · simp [h3 tg h]
    · simp [h4 tg h]
    · simp [h5 tg h]
    · simp [h6 tg h]
  refine triple_nodup_append_of_kind h2 ?_ n2 ?_
  · intro tg htg
    simp only [List.mem_append] at htg
    rcases htg with h | h | h | h
    · simp [h3 tg h]
    · simp [h4 tg h]
    · simp [h5 tg h]
    · simp [h6 tg h]
  refine triple_nodup_append_of_kind h3 ?_ n3 ?_
  · intro tg htg
    simp only [List.mem_append] at htg
    rcases htg with h | h | h
    · simp [h4 tg h]
    · simp [h5 tg h]
    · simp [h6 tg h]
  refine triple_nodup_append_of_kind h4 ?_ n4 ?_
  · intro tg htg
    simp only [List.mem_append] at htg
    rcases htg with h | h
    · simp [h5 tg h]
    · simp [h6 tg h]
  exact triple_nodup_append_of_kind h5 (kind_ne_of_all h6 (by decide)) n5 n6

/-- C3 amended: within each role the declared-or-inferred descriptor names
must be pairwise distinct; under that precondition no two normalized
targets share the same (name, role, Profile) triple.  (The code itself
enforces no such precondition, which is what the counterexample
exploits.) -/
theorem c3_no_triple_collision_amended (libs bins ex ts bs : List TomlTarget)
    (cb : Option String) (md : Metadata) (ps : TomlProfiles)
    (hbins : (bins.map TomlTarget.name).Nodup)
    (hex : (ex.map TomlTarget.name).Nodup)
    (hts : (ts.map TomlTarget.name).Nodup)
    (hbs : (bs.map TomlTarget.name).Nodup) :
    ((normalize libs bins cb ex ts bs md ps).map targetTriple).Nodup := by
  have hnil : ∀ k : TargetKind, ∀ tg ∈ ([] : List Target), tg.kind = k := by
    simp
  have nnil : (([] : List Target).map targetTriple).Nodup := by simp
  unfold normalize
  rcases libs with _ | ⟨l, ls⟩ <;> rcases bins with _ | ⟨b, rest⟩ <;>
    rcases cb with _ | cmd
  · have key := six_segments_triple_nodup [] [] []
      (example_targets ex ps (fun e => "examples/" ++ e.name ++ ".rs"))
      (test_targets ts md ps
        (fun t => if t.name = "test" then "src/test.rs"
                  else "tests/" ++ t.name ++ ".rs"))
      (bench_targets bs md ps
        (fun b => if b.name = "bench" then "src/bench.rs"
                  else "benches/" ++ b.name ++ ".rs"))
      (hnil _) (hnil _) (hnil _) (example_targets_kind _ _ _)
      (test_targets_kind _ _ _ _) (bench_targets_kind _ _ _ _)
      nnil nnil nnil (example_targets_triple_nodup _ _ _ hex)
      (test_targets_triple_nodup _ _ _ _ hts)
      (bench_targets_triple_nodup _ _ _ _ hbs)
    simpa using key
  · have key := six_segments_triple_nodup [] []
      (custom_build_target cmd ps ((filestem cmd).getD ("")))
      (example_targets ex ps (fun e => "examples/" ++ e.name ++ ".rs"))
      (test_targets ts md ps
        (fun t => if t.name = "test" then "src/test.rs"
                  else "tests/" ++ t.name ++ ".rs"))
      (bench_targets bs md ps
        (fun b => if b.name = "bench" then "src/bench.rs"
                  else "benches/" ++ b.name ++ ".rs"))
      (hnil _) (hnil _) (custom_build_target_kind _ _ _)
      (example_targets_kind _ _ _)
      (test_targets_kind _ _ _ _) (bench_targets_kind _ _ _ _)
      nnil nnil (custom_build_triple_nodup _ _ _)
      (example_targets_triple_nodup _ _ _ hex)
      (test_targets_triple_nodup _ _ _ _ hts)
      (bench_targets_triple_nodup _ _ _ _ hbs)
    simpa using key
  · have key := six_segments_triple_nodup []
      (bin_targets (b :: rest)
        (if ex.length > 0 || ts.length > 0 || bs.length > 0 then .Needed
         else .NotNeeded) md ps (fun bin => "src/" ++ bin.name ++ ".rs"))
      []
      (example_targets ex ps (fun e => "examples/" ++ e.name ++ ".rs"))
      (test_targets ts md ps
        (fun t => if t.name = "test" then "src/test.rs"
                  else "tests/" ++ t.name ++ ".rs"))
      (bench_targets bs md ps
        (fun b => if b.name = "bench" then "src/bench.rs"
                  else "benches/" ++ b.name ++ ".rs"))
      (hnil _) (bin_targets_kind _ _ _ _ _) (hnil _)
      (example_targets_kind _ _ _)
      (test_targets_kind _ _ _ _) (bench_targets_kind _ _ _ _)
      nnil (bin_targets_triple_nodup _ _ _ _ _ hbins) nnil
      (example_targets_triple_nodup _ _ _ hex)
      (test_targets_triple_nodup _ _ _ _ hts)
      (bench_targets_triple_nodup _ _ _ _ hbs)
    simpa using key
  · have key := six_segments_triple_nodup []
      (bin_targets (b :: rest)
        (if ex.length > 0 || ts.length > 0 || bs.length > 0 then .Needed
         else .NotNeeded) md ps (fun bin => "src/" ++ bin.name ++ ".rs"))
      (custom_build_target cmd ps ((filestem cmd).getD ("")))
      (example_targets ex ps (fun e => "examples/" ++ e.name ++ ".rs"))
      (test_targets ts md ps
        (fun t => if t.name = "test" then "src/test.rs"
                  else "tests/" ++ t.name ++ ".rs"))
      (bench_targets bs md ps
        (fun b => if b.name = "bench" then "src/bench.rs"
                  else "benches/" ++ b.name ++ ".rs"))
      (hnil _) (bin_targets_kind _ _ _ _ _) (custom_build_target_kind _ _ _)
      (example_targets_kind _ _ _)
      (test_targets_kind _ _ _ _) (bench_targets_kind _ _ _ _)
      nnil (bin_targets_triple_nodup _ _ _ _ _ hbins)
      (custom_build_triple_nodup _ _ _)
      (example_targets_triple_nodup _ _ _ hex)
      (test_targets_triple_nodup _ _ _ _ hts)
      (bench_targets_triple_nodup _ _ _ _ hbs)
    simpa using key
  · have key := six_segments_triple_nodup (lib_targets l .Needed md ps) [] []
      (example_targets ex ps (fun e => "examples/" ++ e.name ++ ".rs"))
      (test_targets ts md ps
        (fun t => if t.name = "test" then "src/test.rs"
                  else "tests/" ++ t.name ++ ".rs"))
      (bench_targets bs md ps
        (fun b => if b.name = "bench" then "src/bench.rs"
                  else "benches/" ++ b.name ++ ".rs"))
      (lib_targets_kind _ _ _ _) (hnil _) (hnil _)
      (example_targets_kind _ _ _)
      (test_targets_kind _ _ _ _) (bench_targets_kind _ _ _ _)
      (lib_targets_triple_nodup _ _ _ _) nnil nnil
      (example_targets_triple_nodup _ _ _ hex)
      (test_targets_triple_nodup _ _ _ _ hts)
      (bench_targets_triple_nodup _ _ _ _ hbs)
    simpa using key
  · have key := six_segments_triple_nodup (lib_targets l .Needed md ps) []
      (custom_build_target cmd ps ((filestem cmd).getD ("")))
      (example_targets ex ps (fun e => "examples/" ++ e.name ++ ".rs"))
      (test_targets ts md ps
        (fun t => if t.name = "test" then "src/test.rs"
                  else "tests/" ++ t.name ++ ".rs"))
      (bench_targets bs md ps
        (fun b => if b.name = "bench" then "src/bench.rs"
                  else "benches/" ++ b.name ++ ".rs"))
      (lib_targets_kind _ _ _ _) (hnil _) (custom_build_target_kind _ _ _)
      (example_targets_kind _ _ _)
      (test_targets_kind _ _ _ _) (bench_targets_kind _ _ _ _)
      (lib_targets_triple_nodup _ _ _ _) nnil
      (custom_build_triple_nodup _ _ _)
      (example_targets_triple_nodup _ _ _ hex)
      (test_targets_triple_nodup _ _ _ _ hts)
      (bench_targets_triple_nodup _ _ _ _ hbs)
    simpa using key
  · have key := six_segments_triple_nodup (lib_targets l .Needed md ps)
      (bin_targets (b :: rest)
        (if ex.length > 0 || ts.length > 0 || bs.length > 0 then .Needed
         else .NotNeeded) md ps
        (fun bin => "src/bin/" ++ bin.name ++ ".rs"))
      []
      (example_targets ex ps (fun e => "examples/" ++ e.name ++ ".rs"))
      (test_targets ts md ps
        (fun t => if t.name = "test" then "src/test.rs"
                  else "tests/" ++ t.name ++ ".rs"))
      (bench_targets bs md ps
        (fun b => if b.name = "bench" then "src/bench.rs"
                  else "benches/" ++ b.name ++ ".rs"))
      (lib_targets_kind _ _ _ _) (bin_targets_kind _ _ _ _ _) (hnil _)
      (example_targets_kind _ _ _)
      (test_targets_kind _ _ _ _) (bench_targets_kind _ _ _ _)
      (lib_targets_triple_nodup _ _ _ _)
      (bin_targets_triple_nodup _ _ _ _ _ hbins) nnil
      (example_targets_triple_nodup _ _ _ hex)
      (test_targets_triple_nodup _ _ _ _ hts)
      (bench_targets_triple_nodup _ _ _ _ hbs)
    simpa using key
  · have key := six_segments_triple_nodup (lib_targets l .Needed md ps)
      (bin_targets (b :: rest)
        (if ex.length > 0 || ts.length > 0 || bs.length > 0 then .Needed
         else .NotNeeded) md ps
        (fun bin => "src/bin/" ++ bin.name ++ ".rs"))
      (custom_build_target cmd ps ((filestem cmd).getD ("")))
      (example_targets ex ps (fun e => "examples/" ++ e.name ++ ".rs"))
      (test_targets ts md ps
        (fun t => if t.name = "test" then "src/test.rs"
                  else "tests/" ++ t.name ++ ".rs"))
      (bench_targets bs md ps
        (fun b => if b.name = "bench" then "src/bench.rs"
                  else "benches/" ++ b.name ++ ".rs"))
      (lib_targets_kind _ _ _ _) (bin_targets_kind _ _ _ _ _)
      (custom_build_target_kind _ _ _)
      (example_targets_kind _ _ _)
      (test_targets_kind _ _ _ _) (bench_targets_kind _ _ _ _)
      (lib_targets_triple_nodup _ _ _ _)
      (bin_targets_triple_nodup _ _ _ _ _ hbins)
      (custom_build_triple_nodup _ _ _)
      (example_targets_triple_nodup _ _ _ hex)
      (test_targets_triple_nodup _ _ _ _ hts)
      (bench_targets_triple_nodup _ _ _ _ hbs)
    simpa using key

/-- C3 counterexample: a manifest declaring two identically named `[[bin]]`
sections compiles successfully, yet two of its emitted targets share the
same (name, role, Profile) triple. -/
theorem c3_counterexample_duplicate_binaries :
    resultIsOk (to_manifest tm3 none SourceId.registry layout0 fsNo) = true ∧
    ¬ ((resultTargets (to_manifest tm3 none SourceId.registry layout0
        fsNo)).map targetTriple).Nodup := by
  exact ⟨by decide, by decide⟩

/-- C3 amended witness: the uniqueness statement instantiated on a concrete
manifest with one library, one binary and one example, the name-uniqueness
hypotheses discharged there. -/
theorem c3_no_triple_collision_amended_witness :
    (([binA] : List TomlTarget).map TomlTarget.name).Nodup ∧
    (([ex0] : List TomlTarget).map TomlTarget.name).Nodup ∧
    (([] : List TomlTarget).map TomlTarget.name).Nodup ∧
    ((normalize [l0] [binA] none [ex0] [] [] md0 ps0).map
      targetTriple).Nodup :=
  ⟨by decide, by decide, by decide,
   c3_no_triple_collision_amended [l0] [binA] [ex0] [] [] none md0 ps0
     (by decide) (by decide) (by decide) (by decide)⟩

/-! ## Dependency-resolution claims -/

/-- The source's orElse chain for the reference selector equals the spec's
priority wording. -/
theorem reference_chain_eq_spec (branch tag rev : Option String) :
    ((branch.or tag).or rev).getD ("master") = referenceSpec branch tag rev := by
  rcases branch with _ | b <;> rcases tag with _ | t <;> rcases rev with _ | r <;>
    rfl

/-- C4: a dependency declared as a bare version string resolves to exactly
the same record as the detailed form with only the version field set, all
other fields at the documented defaults (features empty, default-features
on, not optional, kind normal, registry source). -/
theorem c4_simple_detailed_roundtrip (cx : Context) (n version : String) :
    process_dependencies cx (some [(n, .SimpleDep version)]) (fun dep => dep) =
      process_dependencies cx
        (some [(n, .DetailedDep
          { ({} : DetailedTomlDependency) with version := some version })])
        (fun dep => dep) ∧
    process_dependencies cx (some [(n, .SimpleDep version)]) (fun dep => dep) =
      .ok { cx with deps := cx.deps ++
        [{ name := n, req := some version, source_id := .registry,
           feats := [], uses_default_features := true, optional_dep := false,
           kind := .Normal, only_for := none }] } :=
  ⟨rfl, rfl⟩

/-- C5 counterexample: a path dependency inside a package that was itself
loaded from a remote source resolves to that remote SourceId, not to a
local-path SourceId, refuting "yields a local-path SourceId" as stated. -/
theorem c5_counterexample_remote_parent :
    process_dependencies cxGit (some [("foo", .DetailedDep d5)])
        (fun dep => dep) =
      .ok { cxGit with
        deps :=
          [{ name := "foo", req := none,
             source_id := SourceId.git ("https://example.com/a") ("master"),
             feats := [], uses_default_features := true,
             optional_dep := false, kind := .Normal, only_for := none }],
        nested_paths := ["../foo"] } ∧
    ¬ ∃ p, SourceId.git ("https://example.com/a") ("master") =
      SourceId.path p := by
  exact ⟨rfl, by simp⟩

/-- C5 amended: a dependency with a local path and no remote URL resolves
to the referencing manifest's own SourceId (hence to a local-path SourceId
exactly when the referencing manifest was itself loaded from a local path)
and appends the path to the nested-paths output exactly once. -/
theorem c5_amended_path_dep (cx : Context) (n p : String)
    (d : DetailedTomlDependency) (hgit : d.git = none)
    (hpath : d.path = some p) :
    process_dependencies cx (some [(n, .DetailedDep d)]) (fun dep => dep) =
      .ok { cx with
        deps := cx.deps ++
          [{ name := n, req := d.version,
             source_id := cx.source_id, feats := d.features.getD [],
             uses_default_features := d.default_features.getD true,
             optional_dep := d.optional.getD false, kind := .Normal,
             only_for := none }],
        nested_paths := cx.nested_paths ++ [p] } := by
  obtain ⟨v, pa, g, br, tg, rv, fe, op, df⟩ := d
  cases hgit
  cases hpath
  rfl

/-- C5 amended witness: on a concrete path-loaded context the path
dependency yields that local-path SourceId and one nested-path entry. -/
theorem c5_amended_path_dep_witness :
    d5.git = none ∧ d5.path = some ("../foo") ∧
    process_dependencies cxPath (some [("foo", .DetailedDep d5)])
        (fun dep => dep) =
      .ok { cxPath with
        deps :=
          [{ name := "foo", req := none,
             source_id := SourceId.path ("proj"), feats := [],
             uses_default_features := true, optional_dep := false,
             kind := .Normal, only_for := none }],
        nested_paths := ["../foo"] } :=
  ⟨rfl, rfl, c5_amended_path_dep cxPath ("foo") ("../foo") d5 rfl rfl⟩

/-- C6: a dependency with a remote URL resolves its reference selector with
the fixed priority branch, else tag, else revision, else the default branch
name, and its SourceId is the remote one built from the URL and that
reference. -/
theorem c6_reference_priority (cx : Context) (n url : String)
    (d : DetailedTomlDependency) (hgit : d.git = some url)
    (hurl : ¬ url = "") :
    process_dependencies cx (some [(n, .DetailedDep d)]) (fun dep => dep) =
      .ok { cx with deps := cx.deps ++
        [{ name := n, req := d.version,
           source_id := SourceId.git url (referenceSpec d.branch d.tag d.rev),
           feats := d.features.getD [],
           uses_default_features := d.default_features.getD true,
           optional_dep := d.optional.getD false, kind := .Normal,
           only_for := none }] } := by
  obtain ⟨v, pa, g, br, tg, rv, fe, op, df⟩ := d
  cases hgit
  rw [← reference_chain_eq_spec br tg rv]
  simp only [process_dependencies, List.foldlM, to_url, hurl, if_neg]
  rfl

/-- C6 witness: with `tag = "v1.0"` and no branch the reference resolves to
`"v1.0"`; with none of branch/tag/revision it resolves to `"master"`. -/
theorem c6_reference_priority_witness :
    d6tag.git = some ("https://example.com/a") ∧
    ¬ ("https://example.com/a" : String) = "" ∧
    process_dependencies cxPath (some [("foo", .DetailedDep d6tag)])
        (fun dep => dep) =
      .ok { cxPath with deps :=
        [{ name := "foo", req := none,
           source_id := SourceId.git ("https://example.com/a") ("v1.0"),
           feats := [], uses_default_features := true,
           optional_dep := false, kind := .Normal, only_for := none }] } ∧
    process_dependencies cxPath (some [("foo", .DetailedDep d6bare)])
        (fun dep => dep) =
      .ok { cxPath with deps :=
        [{ name := "foo", req := none,
           source_id := SourceId.git ("https://example.com/a") ("master"),
           feats := [], uses_default_features := true,
           optional_dep := false, kind := .Normal, only_for := none }] } :=
  ⟨rfl, by decide,
   c6_reference_priority cxPath ("foo") ("https://example.com/a") d6tag rfl
     (by decide),
   c6_reference_priority cxPath ("foo") ("https://example.com/a") d6bare rfl
     (by decide)⟩

/-! ## The unused-key walk -/

mutual

/-- The unused-key walk appends exactly one warning per leaf value, naming
its dotted key path, and changes nothing else in the manifest. -/
theorem add_unused_keys_spec (m : Manifest) (t : TomlValue) (key : String) :
    add_unused_keys m t key =
      { m with warnings := m.warnings ++ (leafPaths t key).map warnText } :=
  match t with
  | .table entries => by
    simp only [add_unused_keys, leafPaths]
    exact add_unused_keys_table_spec m entries key
  | .array elems => by
    simp only [add_unused_keys, leafPaths]
    exact add_unused_keys_array_spec m elems key
  | .str s => by
    simp only [add_unused_keys, leafPaths]
    simp [Manifest.add_warning, warnText]
  | .int i => by
    simp only [add_unused_keys, leafPaths]
    simp [Manifest.add_warning, warnText]
  | .boolean b => by
    simp only [add_unused_keys, leafPaths]
    simp [Manifest.add_warning, warnText]

/-- Table half of the walk specification. -/
theorem add_unused_keys_table_spec (m : Manifest)
    (entries : List (String × TomlValue)) (key : String) :
    add_unused_keys_table m entries key =
      { m with
        warnings := m.warnings ++ (leafPathsTable entries key).map warnText } :=
  match entries with
  | [] => by
    simp only [add_unused_keys_table, leafPathsTable]
    simp
  | (k, v) :: rest => by
    simp only [add_unused_keys_table, leafPathsTable]
    rw [add_unused_keys_spec m v (extendKey key k),
      add_unused_keys_table_spec _ rest key]
    simp

/-- Array half of the walk specification. -/
theorem add_unused_keys_array_spec (m : Manifest) (elems : List TomlValue)
    (key : String) :
    add_unused_keys_array m elems key =
      { m with
        warnings := m.warnings ++ (leafPathsArray elems key).map warnText } :=
  match elems with
  | [] => by
    simp only [add_unused_keys_array, leafPathsArray]
    simp
  | v :: rest => by
    simp only [add_unused_keys_array, leafPathsArray]
    rw [add_unused_keys_spec m v key, add_unused_keys_array_spec _ rest key]
    simp

end

/-- The walk touches only the warning list; in particular the target list
survives unchanged. -/
theorem add_unused_keys_targets (m : Manifest) (t : TomlValue)
    (key : String) : (add_unused_keys m t key).targets = m.targets := by
  rw [add_unused_keys_spec]

/-! ## Inverting a successful conversion -/

/-- A successful conversion's target list is exactly the normalization of
the resolved descriptor lists. -/
theorem to_manifest_ok_targets (tm : TomlManifest) (sid : SourceId)
    (layout : Layout) (fs : String → Bool) (m : Manifest)
    (paths : List String) (proj : TomlProject)
    (hproj : tm.project.or tm.package = some proj)
    (h : tm.to_manifest sid layout fs = .ok (m, paths)) :
    m.targets = normalize (resolved_lib tm proj layout)
      (resolved_bins tm proj layout) (build_split proj layout fs).1
      (resolved_examples tm layout) (resolved_tests tm layout)
      (resolved_benches tm layout)
      (PackageId.mk proj.name proj.version sid).generate_metadata
      (tm.profile.getD {}) := by
  unfold TomlManifest.to_manifest at h
  rw [hproj] at h
  simp only [bind, Except.bind, pure, Except.pure] at h
  split at h
  · cases h
  · split at h
    · cases h
    · split at h
      · cases h
      · split at h
        · split at h
          · cases h
          · simp only [Except.ok.injEq, Prod.mk.injEq] at h
            obtain ⟨hm, -⟩ := h
            rw [← hm]
            split_ifs <;> rfl
        · simp only [Except.ok.injEq, Prod.mk.injEq] at h
          obtain ⟨hm, -⟩ := h
          rw [← hm]
          split_ifs <;> rfl

/-- A manifest with no dependency declarations always converts
successfully. -/
theorem to_manifest_ok_of_no_deps (tm : TomlManifest) (sid : SourceId)
    (layout : Layout) (fs : String → Bool) (proj : TomlProject)
    (hproj : tm.project.or tm.package = some proj)
    (hd : tm.dependencies = none) (hdd : tm.dev_dependencies = none)
    (hbd : tm.build_dependencies = none) (htg : tm.target = none) :
    ∃ m paths, tm.to_manifest sid layout fs = .ok (m, paths) := by
  unfold TomlManifest.to_manifest
  rw [hproj, hd, hdd, hbd, htg]
  simp only [bind, Except.bind, pure, Except.pure, process_dependencies]
  exact ⟨_, _, rfl⟩

/-- C7 amended: once the typed conversion has succeeded, the outer entry
point fails with the empty-target-set error exactly when the synthesized
target set is empty; and a manifest with no library entry file, no declared
target sections of any role, no build script, no dependencies and no
discoverable source files fails with precisely that error. -/
theorem c7_empty_target_error (tm : TomlManifest) (leftover : Option TomlValue)
    (sid : SourceId) (layout : Layout) (fs : String → Bool) :
    (∀ m paths, tm.to_manifest sid layout fs = .ok (m, paths) →
      (to_manifest tm leftover sid layout fs =
          .error ("either a [lib] or [[bin]] section must be present") ↔
        m.targets = [])) ∧
    (∀ proj, tm.project.or tm.package = some proj → proj.build = none →
      tm.lib = none → tm.bin = none → tm.«example» = none →
      tm.test = none → tm.bench = none → tm.dependencies = none →
      tm.dev_dependencies = none → tm.build_dependencies = none →
      tm.target = none → layout.lib = none → layout.bins = [] →
      layout.examples = [] → layout.tests = [] → layout.benches = [] →
      to_manifest tm leftover sid layout fs =
        .error ("either a [lib] or [[bin]] section must be present")) := by
  constructor
  · intro m paths hinner
    unfold to_manifest
    rw [hinner]
    simp only [bind, Except.bind]
    cases leftover with
    | none =>
      split
      · next hz =>
        exact iff_of_true rfl (List.length_eq_zero.1 hz)
      · next hz =>
        exact iff_of_false (by simp)
          (fun he => hz (by rw [he]; rfl))
    | some t =>
      rw [show (match some t with
          | some t => add_unused_keys m t ("")
          | none => m) = add_unused_keys m t ("") from rfl]
      split
      · next hz =>
        rw [add_unused_keys_targets] at hz
        exact iff_of_true rfl (List.length_eq_zero.1 hz)
      · next hz =>
        rw [add_unused_keys_targets] at hz
        exact iff_of_false (by simp)
          (fun he => hz (by rw [he]; rfl))
  · intro proj hproj hbuild hlib hbin hex hts hbench hd hdd hbd htg
      hllib hlbins hlex hlts hlbs
    obtain ⟨m, paths, hok⟩ :=
      to_manifest_ok_of_no_deps tm sid layout fs proj hproj hd hdd hbd htg
    have htargets := to_manifest_ok_targets tm sid layout fs m paths proj
      hproj hok
    have h1 : resolved_lib tm proj layout = [] := by
      simp [resolved_lib, hlib, inferred_lib_target, hllib]
    have h2 : resolved_bins tm proj layout = [] := by
      simp [resolved_bins, hbin, inferred_bin_targets, hlbins]
    have h3 : resolved_examples tm layout = [] := by
      simp [resolved_examples, hex, inferred_example_targets, hlex]
    have h4 : resolved_tests tm layout = [] := by
      simp [resolved_tests, hts, inferred_test_targets, hlts]
    have h5 : resolved_benches tm layout = [] := by
      simp [resolved_benches, hbench, inferred_bench_targets, hlbs]
    have h6 : (build_split proj layout fs).1 = none := by
      simp [build_split, hbuild]
    rw [h1, h2, h3, h4, h5, h6] at htargets
    have hempty : m.targets = [] := by
      rw [htargets]
      rfl
    -- conclude through the established equivalence
    unfold to_manifest
    rw [hok]
    simp only [bind, Except.bind]
    cases leftover with
    | none =>
      rw [if_pos (by rw [hempty]; rfl)]
    | some t =>
      rw [show (match some t with
          | some t => add_unused_keys m t ("")
          | none => m) = add_unused_keys m t ("") from rfl]
      rw [if_pos (by rw [add_unused_keys_targets, hempty]; rfl)]

/-- C7 counterexample: a manifest with no library entry file, no declared
`[lib]`/`[[bin]]` section and no discoverable binary source files, but one
declared `[[test]]` section, compiles successfully instead of failing with
the empty-target-set error. -/
theorem c7_counterexample_declared_test :
    resultIsOk (to_manifest tmT none SourceId.registry layout0 fsNo) = true := by
  decide

/-- C7 witness: the fully empty manifest on an empty layout fails with the
empty-target-set error. -/
theorem c7_empty_target_error_witness :
    to_manifest tm7 none SourceId.registry layout0 fsNo =
      .error ("either a [lib] or [[bin]] section must be present") :=
  (c7_empty_target_error tm7 none SourceId.registry layout0 fsNo).2 prj0
    rfl rfl rfl rfl rfl rfl rfl rfl rfl rfl rfl rfl rfl rfl rfl rfl

/-- C10: declaring `[[bench]]` as an empty list is treated exactly like
omitting the section — the layout-inferred benchmarks are synthesized —
whereas declaring an empty test, example or binary list suppresses
inference and yields zero targets of that role: benchmarks are the only
role with the empty-list fallback. -/
theorem c10_empty_bench_list_fallback (tm : TomlManifest) (sid : SourceId)
    (layout : Layout) (fs : String → Bool) :
    (TomlManifest.to_manifest { tm with bench := some [] } sid layout fs =
      TomlManifest.to_manifest { tm with bench := none } sid layout fs) ∧
    (∀ proj m paths, tm.project.or tm.package = some proj →
      TomlManifest.to_manifest { tm with test := some [] } sid layout fs =
        .ok (m, paths) →
      targetsOfKind .testKind m.targets = []) ∧
    (∀ proj m paths, tm.project.or tm.package = some proj →
      TomlManifest.to_manifest { tm with «example» := some [] } sid layout
          fs = .ok (m, paths) →
      targetsOfKind .example m.targets = []) ∧
    (∀ proj m paths, tm.project.or tm.package = some proj →
      TomlManifest.to_manifest { tm with bin := some [] } sid layout fs =
        .ok (m, paths) →
      targetsOfKind .bin m.targets = []) := by
  refine ⟨rfl, ?_, ?_, ?_⟩
  · intro proj m paths hproj hok
    have ht := to_manifest_ok_targets { tm with test := some [] } sid layout
      fs m paths proj hproj hok
    rw [ht, targetsOfKind_normalize_test]
    rfl
  · intro proj m paths hproj hok
    have ht := to_manifest_ok_targets { tm with «example» := some [] } sid
      layout fs m paths proj hproj hok
    rw [ht, targetsOfKind_normalize_example]
    rfl
  · intro proj m paths hproj hok
    have ht := to_manifest_ok_targets { tm with bin := some [] } sid layout
      fs m paths proj hproj hok
    have hbnil : resolved_bins { tm with bin := some [] } proj layout = [] :=
      rfl
    rw [hbnil] at ht
    rw [ht]
    exact List.map_eq_nil_iff.1
      ((targetsOfKind_normalize_bin _ [] _ _ _ _ _ _).trans rfl)

/-- C10 witness: on a concrete manifest over a layout with discovered test
and benchmark files, the empty bench list behaves like the absent section,
and the empty test list yields zero integration-test targets. -/
theorem c10_empty_bench_list_fallback_witness :
    (TomlManifest.to_manifest { tm7 with bench := some [] }
        SourceId.registry layoutTB fsNo =
      TomlManifest.to_manifest { tm7 with bench := none }
        SourceId.registry layoutTB fsNo) ∧
    targetsOfKind .testKind
      (resultTargets (TomlManifest.to_manifest { tm7 with test := some [] }
        SourceId.registry layoutTB fsNo)) = [] := by
  refine ⟨(c10_empty_bench_list_fallback tm7 SourceId.registry layoutTB
    fsNo).1, ?_⟩
  cases hr : TomlManifest.to_manifest { tm7 with test := some [] }
      SourceId.registry layoutTB fsNo with
  | error e =>
    have hok : ∃ m paths, TomlManifest.to_manifest
        { tm7 with test := some [] } SourceId.registry layoutTB fsNo =
        .ok (m, paths) :=
      to_manifest_ok_of_no_deps _ _ _ _ prj0 rfl rfl rfl rfl rfl
    obtain ⟨m, paths, hok⟩ := hok
    rw [hr] at hok
    cases hok
  | ok p =>
    have := (c10_empty_bench_list_fallback tm7 SourceId.registry layoutTB
      fsNo).2.1 prj0 p.1 p.2 rfl (by rw [hr])
    simpa [resultTargets, hr] using this

/-! ## Metadata disambiguation -/

/-- Library variants carry the package fingerprint, mixed with the fixed
tag exactly on the test-executing variants. -/
theorem lib_targets_metadata (l : TomlTarget) (dep : TestDep)
    (md : Metadata) (ps : TomlProfiles) :
    ∀ tg ∈ lib_targets l dep md ps,
      tg.metadata =
        some (if tg.profile.is_test then md.mix ("test") else md) := by
  intro tg htg
  obtain ⟨p, _, rfl⟩ := List.mem_map.1 htg
  rfl

/-- Binary variants carry a `bin-<name>`-mixed fingerprint exactly on the
test-executing variants, and no metadata otherwise. -/
theorem bin_targets_metadata (bins : List TomlTarget) (dep : TestDep)
    (md : Metadata) (ps : TomlProfiles) (dflt : TomlTarget → String) :
    ∀ tg ∈ bin_targets bins dep md ps dflt,
      tg.metadata =
        if tg.profile.is_test then some (md.mix ("bin-" ++ tg.name))
        else none := by
  intro tg htg
  obtain ⟨b, _, hmem⟩ := List.mem_flatMap.1 htg
  obtain ⟨p, _, rfl⟩ := List.mem_map.1 hmem
  rfl

/-- Standalone integration-test targets carry a `test-<name>`-mixed
fingerprint. -/
theorem test_targets_metadata (ts : List TomlTarget) (md : Metadata)
    (ps : TomlProfiles) (dflt : TomlTarget → String) :
    ∀ tg ∈ test_targets ts md ps dflt,
      tg.metadata = some (md.mix ("test-" ++ tg.name)) := by
  intro tg htg
  obtain ⟨t, _, rfl⟩ := List.mem_map.1 htg
  rfl

/-- Standalone benchmark targets carry a `bench-<name>`-mixed
fingerprint. -/
theorem bench_targets_metadata (bs : List TomlTarget) (md : Metadata)
    (ps : TomlProfiles) (dflt : TomlTarget → String) :
    ∀ tg ∈ bench_targets bs md ps dflt,
      tg.metadata = some (md.mix ("bench-" ++ tg.name)) := by
  intro tg htg
  obtain ⟨b, _, rfl⟩ := List.mem_map.1 htg
  rfl

/-- Example targets carry no metadata. -/
theorem example_targets_metadata (ex : List TomlTarget) (ps : TomlProfiles)
    (dflt : TomlTarget → String) :
    ∀ tg ∈ example_targets ex ps dflt, tg.metadata = none := by
  intro tg htg
  obtain ⟨e, _, rfl⟩ := List.mem_map.1 htg
  rfl

/-- The binary-role part of the normalized output is the binary segment
under some default-path template. -/
theorem targetsOfKind_normalize_bin_cases (libs bins : List TomlTarget)
    (cb : Option String) (ex ts bs : List TomlTarget) (md : Metadata)
    (ps : TomlProfiles) :
    ∃ dflt, targetsOfKind .bin (normalize libs bins cb ex ts bs md ps) =
      bin_targets bins
        (if ex.length > 0 || ts.length > 0 || bs.length > 0 then .Needed
         else .NotNeeded) md ps dflt := by
  unfold normalize
  rcases libs with _ | ⟨l, ls⟩ <;> rcases bins with _ | ⟨b, rest⟩ <;>
    rcases cb with _ | cmd <;>
    [exact ⟨fun bin => "", by
      simp [targetsOfKind_append, bin_targets,
        filter_kind_of_all _ _ _ (lib_targets_kind _ _ _ _),
        filter_kind_of_all _ _ _ (custom_build_target_kind _ _ _),
        filter_kind_of_all _ _ _ (example_targets_kind _ _ _),
        filter_kind_of_all _ _ _ (test_targets_kind _ _ _ _),
        filter_kind_of_all _ _ _ (bench_targets_kind _ _ _ _)]⟩;
     exact ⟨fun bin => "", by
      simp [targetsOfKind_append, bin_targets,
        filter_kind_of_all _ _ _ (lib_targets_kind _ _ _ _),
        filter_kind_of_all _ _ _ (custom_build_target_kind _ _ _),
        filter_kind_of_all _ _ _ (example_targets_kind _ _ _),
        filter_kind_of_all _ _ _ (test_targets_kind _ _ _ _),
        filter_kind_of_all _ _ _ (bench_targets_kind _ _ _ _)]⟩;
     exact ⟨fun bin => "src/" ++ bin.name ++ ".rs", by
      simp [targetsOfKind_append,
        filter_kind_of_all _ _ _ (lib_targets_kind _ _ _ _),
        filter_kind_of_all _ _ _ (bin_targets_kind _ _ _ _ _),
        filter_kind_of_all _ _ _ (custom_build_target_kind _ _ _),
        filter_kind_of_all _ _ _ (example_targets_kind _ _ _),
        filter_kind_of_all _ _ _ (test_targets_kind _ _ _ _),
        filter_kind_of_all _ _ _ (bench_targets_kind _ _ _ _)]⟩;
     exact ⟨fun bin => "src/" ++ bin.name ++ ".rs", by
      simp [targetsOfKind_append,
        filter_kind_of_all _ _ _ (lib_targets_kind _ _ _ _),
        filter_kind_of_all _ _ _ (bin_targets_kind _ _ _ _ _),
        filter_kind_of_all _ _ _ (custom_build_target_kind _ _ _),
        filter_kind_of_all _ _ _ (example_targets_kind _ _ _),
        filter_kind_of_all _ _ _ (test_targets_kind _ _ _ _),
        filter_kind_of_all _ _ _ (bench_targets_kind _ _ _ _)]⟩;
     exact ⟨fun bin => "", by
      simp [targetsOfKind_append, bin_targets,
        filter_kind_of_all _ _ _ (lib_targets_kind _ _ _ _),
        filter_kind_of_all _ _ _ (custom_build_target_kind _ _ _),
        filter_kind_of_all _ _ _ (example_targets_kind _ _ _),
        filter_kind_of_all _ _ _ (test_targets_kind _ _ _ _),
        filter_kind_of_all _ _ _ (bench_targets_kind _ _ _ _)]⟩;
     exact ⟨fun bin => "", by
      simp [targetsOfKind_append, bin_targets,
        filter_kind_of_all _ _ _ (lib_targets_kind _ _ _ _),
        filter_kind_of_all _ _ _ (custom_build_target_kind _ _ _),
        filter_kind_of_all _ _ _ (example_targets_kind _ _ _),
        filter_kind_of_all _ _ _ (test_targets_kind _ _ _ _),
        filter_kind_of_all _ _ _ (bench_targets_kind _ _ _ _)]⟩;
     exact ⟨fun bin => "src/bin/" ++ bin.name ++ ".rs", by
      simp [targetsOfKind_append,
        filter_kind_of_all _ _ _ (lib_targets_kind _ _ _ _),
        filter_kind_of_all _ _ _ (bin_targets_kind _ _ _ _ _),
        filter_kind_of_all _ _ _ (custom_build_target_kind _ _ _),
        filter_kind_of_all _ _ _ (example_targets_kind _ _ _),
        filter_kind_of_all _ _ _ (test_targets_kind _ _ _ _),
        filter_kind_of_all _ _ _ (bench_targets_kind _ _ _ _)]⟩;
     exact ⟨fun bin => "src/bin/" ++ bin.name ++ ".rs", by
      simp [targetsOfKind_append,
        filter_kind_of_all _ _ _ (lib_targets_kind _ _ _ _),
        filter_kind_of_all _ _ _ (bin_targets_kind _ _ _ _ _),
        filter_kind_of_all _ _ _ (custom_build_target_kind _ _ _),
        filter_kind_of_all _ _ _ (example_targets_kind _ _ _),
        filter_kind_of_all _ _ _ (test_targets_kind _ _ _ _),
        filter_kind_of_all _ _ _ (bench_targets_kind _ _ _ _)]⟩]

/-- C8: in the normalized output, the library's test-executing variants
carry the fingerprint mixed with the fixed tag (and the plain fingerprint
otherwise); every binary's test-executing variants carry a fingerprint
mixed with `bin-<name>` and its other variants no metadata; standalone
integration-test and benchmark targets carry fingerprints mixed with
`test-<name>` resp. `bench-<name>`; example targets carry none. -/
theorem c8_metadata_disambiguation (libs bins ex ts bs : List TomlTarget)
    (cb : Option String) (md : Metadata) (ps : TomlProfiles) :
    (∀ l ls, libs = l :: ls →
      ∀ tg ∈ targetsOfKind .lib (normalize libs bins cb ex ts bs md ps),
        tg.metadata =
          some (if tg.profile.is_test then md.mix ("test") else md)) ∧
    (∀ tg ∈ targetsOfKind .bin (normalize libs bins cb ex ts bs md ps),
        tg.metadata =
          if tg.profile.is_test then some (md.mix ("bin-" ++ tg.name))
          else none) ∧
    (∀ tg ∈ targetsOfKind .testKind (normalize libs bins cb ex ts bs md ps),
        tg.metadata = some (md.mix ("test-" ++ tg.name))) ∧
    (∀ tg ∈ targetsOfKind .bench (normalize libs bins cb ex ts bs md ps),
        tg.metadata = some (md.mix ("bench-" ++ tg.name))) ∧
    (∀ tg ∈ targetsOfKind .example (normalize libs bins cb ex ts bs md ps),
        tg.metadata = none) := by
  refine ⟨?_, ?_, ?_, ?_, ?_⟩
  · rintro l ls rfl tg htg
    rw [targetsOfKind_normalize_lib] at htg
    exact lib_targets_metadata l .Needed md ps tg htg
  · intro tg htg
    obtain ⟨dflt, hd⟩ :=
      targetsOfKind_normalize_bin_cases libs bins cb ex ts bs md ps
    rw [hd] at htg
    exact bin_targets_metadata bins _ md ps dflt tg htg
  · intro tg htg
    rw [targetsOfKind_normalize_test] at htg
    exact test_targets_metadata _ md ps _ tg htg
  · intro tg htg
    rw [targetsOfKind_normalize_bench] at htg
    exact bench_targets_metadata _ md ps _ tg htg
  · intro tg htg
    rw [targetsOfKind_normalize_example] at htg
    exact example_targets_metadata _ ps _ tg htg

/-- C8 witness: the metadata statement instantiated on a concrete manifest
with a library, a binary and an example, the library hypothesis discharged
there. -/
theorem c8_metadata_disambiguation_witness :
    (∀ tg ∈ targetsOfKind .lib (normalize [l0] [binA] none [ex0] [] []
        md0 ps0),
      tg.metadata =
        some (if tg.profile.is_test then md0.mix ("test") else md0)) ∧
    (∀ tg ∈ targetsOfKind .bin (normalize [l0] [binA] none [ex0] [] []
        md0 ps0),
      tg.metadata =
        if tg.profile.is_test then some (md0.mix ("bin-" ++ tg.name))
        else none) :=
  ⟨(c8_metadata_disambiguation [l0] [binA] [ex0] [] [] none md0 ps0).1
      l0 [] rfl,
   (c8_metadata_disambiguation [l0] [binA] [ex0] [] [] none md0 ps0).2.1⟩

/-- C9: the unused-key walk appends exactly one warning per unconsumed
leaf value, naming its dotted key path (a table entry extends the path
with its key, an array element keeps it unchanged), and alters nothing in
the manifest besides the warning list; being a total function it never
fails. -/
theorem c9_unused_key_walk (m : Manifest) (t : TomlValue) (key k : String) :
    (add_unused_keys m t key).warnings =
        m.warnings ++ (leafPaths t key).map warnText ∧
    (add_unused_keys m t key).warnings.length =
        m.warnings.length + (leafPaths t key).length ∧
    (add_unused_keys m t key).summary = m.summary ∧
    (add_unused_keys m t key).targets = m.targets ∧
    (add_unused_keys m t key).target_dir = m.target_dir ∧
    (add_unused_keys m t key).doc_dir = m.doc_dir ∧
    (add_unused_keys m t key).build = m.build ∧
    (add_unused_keys m t key).exclude = m.exclude ∧
    (add_unused_keys m t key).links = m.links ∧
    (add_unused_keys m t key).metadata = m.metadata ∧
    leafPathsTable [(k, t)] key = leafPaths t (extendKey key k) ∧
    leafPathsArray [t] key = leafPaths t key := by
  refine ⟨?_, ?_, ?_, ?_, ?_, ?_, ?_, ?_, ?_, ?_, ?_, ?_⟩
  · rw [add_unused_keys_spec]
  · rw [add_unused_keys_spec]
    simp
  · rw [add_unused_keys_spec]
  · rw [add_unused_keys_spec]
  · rw [add_unused_keys_spec]
  · rw [add_unused_keys_spec]
  · rw [add_unused_keys_spec]
  · rw [add_unused_keys_spec]
  · rw [add_unused_keys_spec]
  · rw [add_unused_keys_spec]
  · simp [leafPathsTable]
  · simp [leafPathsArray]

end CargoToml
